import Mathlib

/-!
# OpenDUNE unit pool (`src/pool/unit.c`)

A shallow embedding of the unit pool routines `Unit_Get_ByIndex`, `Unit_Get_ByMemory`,
`Unit_Find`, `Unit_Init`, `Unit_Recount`, `Unit_Allocate` and `Unit_Free`, and the properties
of the pool that follow from the code.

Conventions of the embedding.

* Machine integers are natural numbers. Arguments and stored fields are taken to lie in the
  range of their C type; every increment, decrement and addition that the C code performs on
  a 16-bit object is written with an explicit `% 65536`, except for the counter of a loop
  whose bound keeps it in range, as noted at the loop.
* A `Unit *` that points into the slot table is the table position it points to.
* A function that can fail an `assert` returns `Option`: `none` is the failed assertion
  (the program aborts, there is no resulting state), `some r` is a normal return.
  `Unit_Allocate` returns `some (none, s)` for the C result `NULL`.
* The emulated memory that holds the slot table, the array `g_global->unitArray` and the
  house pool are maps from a position to the element stored there.
-/

namespace OpenDUNE

/-! ## Data model -/

/-- A segmented address `csip32`: the union of the pair `s.ip`, `s.cs` (16 bits each) with the
32-bit word `csip`, whose low half is `ip` and high half is `cs`. -/
structure csip32 where
  ip : Nat
  cs : Nat
deriving DecidableEq, Repr

/-- The 32-bit view `.csip` of an address. -/
def csip32.csip (a : csip32) : Nat := a.cs * 65536 + a.ip

/-- The flag word `o.flags` of an object: the bits the pool reads or writes by name, and the
remaining bits of `flags.all` as one number. -/
structure ObjectFlags where
  used : Bool
  allocated : Bool
  isNotOnMap : Bool
  variable_6_0001 : Bool
  others : Nat
deriving DecidableEq, Repr

/-- The value of the flag word after `flags.all = 0x0000`. -/
def ObjectFlags.zero : ObjectFlags :=
  { used := false, allocated := false, isNotOnMap := false, variable_6_0001 := false,
    others := 0 }

/-- The script state `o.script` of an object: the field `delay` and the remaining bytes. -/
structure ScriptEngine where
  delay : Nat
  rest : Nat
deriving DecidableEq, Repr

/-- The part `o` of a unit record that it shares with every pooled object. -/
structure Object where
  index : Nat
  type : Nat
  linkedID : Nat
  flags : ObjectFlags
  houseID : Nat
  script : ScriptEngine
  rest : Nat
deriving DecidableEq, Repr

/-- A unit record: the object part, the fields `variable_72[0]` and `amount`, and the
remaining bytes of the record as one number. -/
structure Unit where
  o : Object
  variable_72_0 : Nat
  amount : Nat
  rest : Nat
deriving DecidableEq, Repr

/-- The record left by `memset(u, 0, sizeof(Unit))`. -/
def Unit.zero : Unit :=
  { o := { index := 0, type := 0, linkedID := 0, flags := ObjectFlags.zero, houseID := 0,
           script := { delay := 0, rest := 0 }, rest := 0 },
    variable_72_0 := 0, amount := 0, rest := 0 }

/-- The two fields of a house record that the unit pool uses (both 16 bits wide). -/
structure House where
  unitCount : Nat
  unitCountMax : Nat
deriving DecidableEq, Repr

/-- One entry of the type catalog `g_unitInfo`. -/
structure UnitInfo where
  movementType : Nat
  indexStart : Nat
  indexEnd : Nat
deriving DecidableEq, Repr

/-- The declarations that `unit.c` takes from headers and other modules: the constants
`UNIT_INDEX_MAX`, `sizeof(Unit)`, `MOVEMENT_WINGER`, `MOVEMENT_SLITHER`, `UNIT_SANDWORM`,
the table `g_unitInfo`, the effect of `Script_Reset` on a script state, and the house
`Unit_GetHouseID` reports for a record. The index of a slot is a `uint16`, so the code
presupposes `UNIT_INDEX_MAX ≤ 0xFFFF`. -/
structure Config where
  UNIT_INDEX_MAX : Nat
  sizeofUnit : Nat
  g_unitInfo : Nat → UnitInfo
  MOVEMENT_WINGER : Nat
  MOVEMENT_SLITHER : Nat
  UNIT_SANDWORM : Nat
  Script_Reset : ScriptEngine → ScriptEngine
  Unit_GetHouseID : Unit → Nat

/-- The value of the macro `UNIT_INDEX_INVALID`, the 16-bit "find an unused index" request. -/
def UNIT_INDEX_INVALID : Nat := 0xFFFF

/-- The value of the macro `HOUSE_INDEX_INVALID`, the 16-bit "any house" filter. -/
def HOUSE_INDEX_INVALID : Nat := 0xFFFF

/-- The cursor `PoolFindStruct` of a search: the house and type filters and the last cache
position tried (three 16-bit fields; `0xFFFF` in `index` is a search not yet started). -/
structure PoolFindStruct where
  houseID : Nat
  type : Nat
  index : Nat
deriving DecidableEq, Repr

/-- The fields of `g_global` that the unit pool uses. -/
structure Global where
  unitStartPos : csip32
  unitCount : Nat
  unitArray : Nat → csip32
  variable_38BC : Nat

/-- The state the pool routines work on: `g_global`, the slot table in emulated memory
(`units i` is the record at table position `i`) and the house pool. -/
structure Pool where
  g_global : Global
  units : Nat → Unit
  houses : Nat → House

/-! ## Operations -/

/-- The source function `Unit_Get_ByIndex`: the assertion `index < UNIT_INDEX_MAX`, then the
record at that table position. -/
def Unit_Get_ByIndex (cfg : Config) (index : Nat) : Option Nat :=
  if index < cfg.UNIT_INDEX_MAX then some index else none

/-- Modelled from the spec: `House_Get_ByIndex` (src/pool/house.c) is the owner registry's
`lookup(ownerID) -> OwnerHandle`; the handle is the position of the house record. -/
def House_Get_ByIndex (houseID : Nat) : Nat := houseID

/-- The address `g_global->unitStartPos` with `s.ip += index * sizeof(Unit)` (16-bit). -/
def unitAddress (cfg : Config) (s : Pool) (index : Nat) : csip32 :=
  { s.g_global.unitStartPos with
    ip := (s.g_global.unitStartPos.ip + index * cfg.sizeofUnit) % 65536 }

/-- The source function `Unit_Init`. -/
def Unit_Init (cfg : Config) (s : Pool) (address : csip32) : Option Pool :=
  let g1 : Global := { s.g_global with unitCount := 0 }
  let g2 : Global :=
    if address.csip ≠ 0 then
      { g1 with unitStartPos :=
          { cs := (address.cs + address.ip / 16) % 65536, ip := address.ip % 16 } }
    else g1
  if g2.unitStartPos.csip = 0 then some { s with g_global := g2 }
  else
    match Unit_Get_ByIndex cfg 0 with
    | none => none
    | some _ =>
      some { s with
        g_global := g2
        units := fun i => if i < cfg.UNIT_INDEX_MAX then Unit.zero else s.units i }

/-- The loop `for (index = indexStart; index <= indexEnd; index++)` of `Unit_Allocate`.
The first argument is the number of values of `index` that still satisfy
`index <= indexEnd`. The result `none` is the failed assertion of `Unit_Get_ByIndex`,
`some none` is the exit with `index > indexEnd`, and `some (some index)` is the `break` at a
slot that is not used. The assertion stops the loop before `index++` can wrap. -/
def Unit_Allocate.scan (cfg : Config) (s : Pool) : Nat → Nat → Option (Option Nat)
  | 0, _ => some none
  | n + 1, index =>
    match Unit_Get_ByIndex cfg index with
    | none => none
    | some u => if !(s.units u).o.flags.used then some (some index)
                else Unit_Allocate.scan cfg s n (index + 1)

/-- The index selection of `Unit_Allocate` (lines 145 to 158): `none` is a failed assertion,
`some none` is `return NULL`, `some (some index)` is the selected slot. -/
def Unit_Allocate.select (cfg : Config) (s : Pool) (index type : Nat) : Option (Option Nat) :=
  if index = 0 ∨ index = UNIT_INDEX_INVALID then
    let indexStart := (cfg.g_unitInfo type).indexStart
    let indexEnd := (cfg.g_unitInfo type).indexEnd
    Unit_Allocate.scan cfg s (indexEnd + 1 - indexStart) indexStart
  else
    match Unit_Get_ByIndex cfg index with
    | none => none
    | some u => if (s.units u).o.flags.used then some none else some (some index)

/-- The record written by lines 163 to 173 of `Unit_Allocate`. -/
def Unit_Allocate.record (cfg : Config) (index type houseID : Nat) : Unit :=
  let u0 := Unit.zero
  { u0 with
    o := { u0.o with
      index := index
      type := type
      houseID := houseID
      linkedID := 0xFF
      flags := { u0.o.flags with used := true, allocated := true, variable_6_0001 := true }
      script := { u0.o.script with delay := 0 } }
    variable_72_0 := 0xFF
    amount := if type = cfg.UNIT_SANDWORM then 3 else u0.amount }

/-- Lines 160 to 177 of `Unit_Allocate`: the writes of a successful allocation at `index`. -/
def Unit_Allocate.commit (cfg : Config) (s : Pool) (index type houseID : Nat) : Pool :=
  let h := House_Get_ByIndex houseID
  let g := s.g_global
  { g_global := { g with
      unitArray := Function.update g.unitArray g.unitCount (unitAddress cfg s index)
      unitCount := (g.unitCount + 1) % 65536 }
    units := Function.update s.units index (Unit_Allocate.record cfg index type houseID)
    houses := Function.update s.houses h
      { s.houses h with unitCount := ((s.houses h).unitCount + 1) % 65536 } }

/-- The source function `Unit_Allocate`. The result `some (none, s)` is `return NULL`,
`some (some index, s')` is the allocated record and the state after the call. -/
def Unit_Allocate (cfg : Config) (s : Pool) (index type houseID : Nat) :
    Option (Option Nat × Pool) :=
  if type = 0xFF ∨ houseID = 0xFF then some (none, s)
  else if s.g_global.unitStartPos.csip = 0 then some (none, s)
  else
    let h := s.houses (House_Get_ByIndex houseID)
    if h.unitCount ≥ h.unitCountMax
        ∧ (cfg.g_unitInfo type).movementType ≠ cfg.MOVEMENT_WINGER
        ∧ (cfg.g_unitInfo type).movementType ≠ cfg.MOVEMENT_SLITHER
        ∧ s.g_global.variable_38BC = 0 then some (none, s)
    else
      match Unit_Allocate.select cfg s index type with
      | none => none
      | some none => some (none, s)
      | some (some j) => some (some j, Unit_Allocate.commit cfg s j type houseID)

/-- The loop `for (i = 0; i < g_global->unitCount; i++)` of `Unit_Free`: the first argument
is the number of values of `i` that still satisfy `i < unitCount`; the result is the value
of `i` when the loop is left. -/
def Unit_Free.scan (unitArray : Nat → csip32) (ucsip : csip32) : Nat → Nat → Nat
  | 0, i => i
  | n + 1, i =>
    if (unitArray i).csip ≠ ucsip.csip then Unit_Free.scan unitArray ucsip n (i + 1) else i

/-- The effect of `memmove(&a[i], &a[i + 1], n * sizeof(a[0]))` on the array `a`. -/
def memmoveDown (a : Nat → csip32) (i n : Nat) : Nat → csip32 :=
  fun k => if i ≤ k ∧ k < i + n then a (k + 1) else a k

/-- The source function `Unit_Free`, applied to the record at table position `u`. -/
def Unit_Free (cfg : Config) (s : Pool) (u : Nat) : Option Pool :=
  let g := s.g_global
  let ucsip := unitAddress cfg s (s.units u).o.index
  let r : Unit := { s.units u with
    o := { (s.units u).o with
      flags := ObjectFlags.zero
      script := cfg.Script_Reset (s.units u).o.script } }
  let i := Unit_Free.scan g.unitArray ucsip g.unitCount 0
  if i < g.unitCount then
    let unitCount := (g.unitCount + 65535) % 65536
    let h := House_Get_ByIndex r.o.houseID
    let houses := Function.update s.houses h
      { s.houses h with unitCount := ((s.houses h).unitCount + 65535) % 65536 }
    let units := Function.update s.units u r
    if i = unitCount then
      some { g_global := { g with unitCount := unitCount }, units := units, houses := houses }
    else
      some { g_global := { g with
               unitCount := unitCount
               unitArray := memmoveDown g.unitArray i (unitCount - i) }
             units := units, houses := houses }
  else none

/-- The source function `Unit_Get_ByMemory`: the assertion that `address.csip` lies in the
region `[unitStartPos.csip, unitStartPos.csip + sizeof(Unit) * UNIT_INDEX_MAX)`, then the
pointer to the byte at `address.s.cs:address.s.ip`, whose linear address is `cs * 16 + ip`.
The pointer is the table position of the record that holds this byte; it points to the
start of that record when `address` is the address of a slot. -/
def Unit_Get_ByMemory (cfg : Config) (s : Pool) (address : csip32) : Option Nat :=
  if s.g_global.unitStartPos.csip ≤ address.csip
      ∧ address.csip < s.g_global.unitStartPos.csip + cfg.sizeofUnit * cfg.UNIT_INDEX_MAX then
    some ((address.cs * 16 + address.ip
            - (s.g_global.unitStartPos.cs * 16 + s.g_global.unitStartPos.ip)) / cfg.sizeofUnit)
  else none

/-- The loop `for (; find->index < g_global->unitCount; find->index++)` of `Unit_Find`, for
the filters `houseID` and `type` of the cursor. The first argument is the number of values
of `find->index` that still satisfy `find->index < unitCount`, so the increment does not
wrap. The result `none` is the failed assertion of `Unit_Get_ByMemory`; otherwise it is the
value returned and the value of `find->index` when the loop is left. -/
def Unit_Find.loop (cfg : Config) (s : Pool) (houseID type : Nat) :
    Nat → Nat → Option (Option Nat × Nat)
  | 0, index => some (none, index)
  | n + 1, index =>
    let pos := s.g_global.unitArray index
    if pos.csip = 0 then Unit_Find.loop cfg s houseID type n (index + 1)
    else
      match Unit_Get_ByMemory cfg s pos with
      | none => none
      | some u =>
        if (s.units u).o.flags.isNotOnMap = true ∧ s.g_global.variable_38BC = 0 then
          Unit_Find.loop cfg s houseID type n (index + 1)
        else if houseID ≠ HOUSE_INDEX_INVALID ∧ houseID ≠ cfg.Unit_GetHouseID (s.units u) then
          Unit_Find.loop cfg s houseID type n (index + 1)
        else if type ≠ UNIT_INDEX_INVALID ∧ type ≠ (s.units u).o.type then
          Unit_Find.loop cfg s houseID type n (index + 1)
        else some (some u, index)

/-- The source function `Unit_Find`: the record returned (`none` for `NULL`), the cursor
after the call and the state after the call, which the function does not write to. -/
def Unit_Find (cfg : Config) (s : Pool) (find : PoolFindStruct) :
    Option (Option Nat × PoolFindStruct × Pool) :=
  if find.index ≥ s.g_global.unitCount ∧ find.index ≠ 0xFFFF then some (none, find, s)
  else
    let index := (find.index + 1) % 65536
    match Unit_Find.loop cfg s find.houseID find.type (s.g_global.unitCount - index) index with
    | none => none
    | some (r, index1) => some (r, { find with index := index1 }, s)

/-- Modelled from the spec: `House_Find` (src/pool/house.c) is the owner registry's
"iterator over all known owners"; `known` lists the houses it yields to the loop of lines
100 to 105 of `Unit_Recount`, which sets the counter `unitCount` of each of them to zero. -/
def Unit_Recount.resetHouses (known : List Nat) (houses : Nat → House) : Nat → House :=
  known.foldl (fun hs h => Function.update hs h { hs h with unitCount := 0 }) houses

/-- The loop `for (index = 0; index < UNIT_INDEX_MAX; index++)` of `Unit_Recount`. The first
argument is the number of values of `index` that still satisfy `index < UNIT_INDEX_MAX`. -/
def Unit_Recount.loop (cfg : Config) : Nat → Nat → Pool → Option Pool
  | 0, _, s => some s
  | n + 1, index, s =>
    match Unit_Get_ByIndex cfg index with
    | none => none
    | some u =>
      if !(s.units u).o.flags.used then Unit_Recount.loop cfg n (index + 1) s
      else
        let h := House_Get_ByIndex (s.units u).o.houseID
        let g := s.g_global
        Unit_Recount.loop cfg n (index + 1)
          { s with
            houses := Function.update s.houses h
              { s.houses h with unitCount := ((s.houses h).unitCount + 1) % 65536 }
            g_global := { g with
              unitArray := Function.update g.unitArray g.unitCount (unitAddress cfg s index)
              unitCount := (g.unitCount + 1) % 65536 } }

/-- The source function `Unit_Recount`; `known` lists the houses `House_Find` yields. -/
def Unit_Recount (cfg : Config) (known : List Nat) (s : Pool) : Option Pool :=
  Unit_Recount.loop cfg cfg.UNIT_INDEX_MAX 0
    { s with
      houses := Unit_Recount.resetHouses known s.houses
      g_global := { s.g_global with unitCount := 0 } }

/-! ## Derived notions used by the properties -/

/-- The live index cache: the first `unitCount` entries of `unitArray`, in order. -/
def liveCache (s : Pool) : List csip32 :=
  (List.range s.g_global.unitCount).map s.g_global.unitArray

/-- The table positions below `UNIT_INDEX_MAX` whose record has the `used` flag set, in
ascending order. -/
def usedSlots (cfg : Config) (s : Pool) : List Nat :=
  (List.range cfg.UNIT_INDEX_MAX).filter (fun i => (s.units i).o.flags.used)

/-- The occupied table positions whose record names the house `o`. -/
def usedSlotsOf (cfg : Config) (s : Pool) (o : Nat) : List Nat :=
  (List.range cfg.UNIT_INDEX_MAX).filter
    (fun i => (s.units i).o.flags.used && decide ((s.units i).o.houseID = o))

/-- The owner passes the capacity check of `Unit_Allocate`: it is below its capacity, or the
type moves as a winger or slithers, or the ignore-capacity mode `variable_38BC` is on. -/
def passesCapacityCheck (cfg : Config) (s : Pool) (type houseID : Nat) : Prop :=
  (s.houses (House_Get_ByIndex houseID)).unitCount
      < (s.houses (House_Get_ByIndex houseID)).unitCountMax
    ∨ (cfg.g_unitInfo type).movementType = cfg.MOVEMENT_WINGER
    ∨ (cfg.g_unitInfo type).movementType = cfg.MOVEMENT_SLITHER
    ∨ s.g_global.variable_38BC ≠ 0

/-- A call of the pool interface: `Unit_Allocate(index, type, houseID)` or `Unit_Free` of the
record at a table position. -/
inductive Call where
  | allocate (index type houseID : Nat)
  | free (u : Nat)
deriving DecidableEq, Repr

/-- The state after one call; `none` when the call fails an assertion. -/
def Call.step (cfg : Config) (s : Pool) : Call → Option Pool
  | Call.allocate index type houseID =>
    (Unit_Allocate cfg s index type houseID).map (fun r => r.2)
  | Call.free u => Unit_Free cfg s u

/-- The conditions under which the pool is called in state `s`: an allocation names an
index inside the table or the value `UNIT_INDEX_INVALID` and a type whose index range ends
inside the table; a free names a table position whose record is used. -/
def Call.admissible (cfg : Config) (s : Pool) : Call → Bool
  | Call.allocate index type _ =>
    (decide (index < cfg.UNIT_INDEX_MAX) || decide (index = UNIT_INDEX_INVALID))
      && decide ((cfg.g_unitInfo type).indexEnd < cfg.UNIT_INDEX_MAX)
  | Call.free u => decide (u < cfg.UNIT_INDEX_MAX) && (s.units u).o.flags.used

/-- The state after a sequence of calls made one after the other; `none` when one of them
fails an assertion. -/
def run (cfg : Config) : Pool → List Call → Option Pool
  | s, [] => some s
  | s, c :: cs =>
    match c.step cfg s with
    | none => none
    | some s1 => run cfg s1 cs

/-- Every call of the sequence is admissible in the state in which it is made. Nothing is
required of the calls that would follow a failed assertion. -/
def admissible (cfg : Config) : Pool → List Call → Bool
  | _, [] => true
  | s, c :: cs =>
    c.admissible cfg s &&
      match c.step cfg s with
      | none => true
      | some s1 => admissible cfg s1 cs

/-- The results, in call order, and the final state of `k` successive calls
`Unit_Allocate(UNIT_INDEX_INVALID, type, houseID)`; `none` when one of them fails an
assertion. -/
def allocateAuto (cfg : Config) (type houseID : Nat) :
    Nat → Pool → Option (List (Option Nat) × Pool)
  | 0, s => some ([], s)
  | k + 1, s =>
    match Unit_Allocate cfg s UNIT_INDEX_INVALID type houseID with
    | none => none
    | some (r, s1) =>
      match allocateAuto cfg type houseID k s1 with
      | none => none
      | some (rs, s2) => some (r :: rs, s2)

/-- The live cache and the slot table agree: the live cache holds, in some order, one entry
for each used slot of the table, namely the address of that slot, and every used slot
records its own table position in `o.index`. -/
structure Consistent (cfg : Config) (s : Pool) : Prop where
  cache : List.Perm (liveCache s) ((usedSlots cfg s).map (unitAddress cfg s))
  index : ∀ i, i < cfg.UNIT_INDEX_MAX → (s.units i).o.flags.used = true →
    (s.units i).o.index = i

/-- Every house counter is the number of used slots that name the house. -/
def OwnersExact (cfg : Config) (s : Pool) : Prop :=
  ∀ o, (s.houses o).unitCount = (usedSlotsOf cfg s o).length

/-- The record at table position `u` passes the filters of the cursor: it is on the map or
the reveal-all mode `variable_38BC` is on, the house filter is "any" or the house of the
record, and the type filter is "any" or the type of the record. -/
def passesFilter (cfg : Config) (s : Pool) (find : PoolFindStruct) (u : Nat) : Bool :=
  (!(s.units u).o.flags.isNotOnMap || decide (s.g_global.variable_38BC ≠ 0))
    && (decide (find.houseID = HOUSE_INDEX_INVALID)
        || decide (find.houseID = cfg.Unit_GetHouseID (s.units u)))
    && (decide (find.type = UNIT_INDEX_INVALID) || decide (find.type = (s.units u).o.type))

/-- The results, in call order, and the cursor after `k` successive calls of `Unit_Find`
with the same cursor; `none` when one of them fails an assertion. -/
def findCalls (cfg : Config) : Nat → Pool → PoolFindStruct →
    Option (List (Option Nat) × PoolFindStruct)
  | 0, _, find => some ([], find)
  | k + 1, s, find =>
    match Unit_Find cfg s find with
    | none => none
    | some (r, find1, s1) =>
      match findCalls cfg k s1 find1 with
      | none => none
      | some (rs, find2) => some (r :: rs, find2)

/-- The state `t` of the loop of `Unit_Recount` entered in state `s`, once the slots below
`k` are done: the table and the base are those of `s`, the live cache lists the addresses
of the used slots below `k` in ascending order, the entries of `unitArray` from `unitCount`
on are those of `s`, and each house counter has been incremented once for every used slot
below `k` that names the house. -/
structure RecountState (cfg : Config) (s : Pool) (k : Nat) (t : Pool) : Prop where
  units : t.units = s.units
  base : t.g_global.unitStartPos = s.g_global.unitStartPos
  mode : t.g_global.variable_38BC = s.g_global.variable_38BC
  count : t.g_global.unitCount
    = ((List.range k).filter (fun i => (s.units i).o.flags.used)).length
  cache : liveCache t
    = ((List.range k).filter (fun i => (s.units i).o.flags.used)).map (unitAddress cfg s)
  rest : ∀ p, t.g_global.unitCount ≤ p → t.g_global.unitArray p = s.g_global.unitArray p
  capacity : ∀ o, (t.houses o).unitCountMax = (s.houses o).unitCountMax
  counter : ∀ o, (t.houses o).unitCount
    = if ((List.range k).filter
          (fun i => (s.units i).o.flags.used && decide ((s.units i).o.houseID = o))).length = 0
      then (s.houses o).unitCount
      else ((s.houses o).unitCount + ((List.range k).filter
          (fun i => (s.units i).o.flags.used && decide ((s.units i).o.houseID = o))).length)
        % 65536

/-! ## A small instance: five slots -/

/-- A catalog with five slots of eight bytes; type `2` is a winger, every type may use the
whole table. -/
def demoCfg : Config :=
  { UNIT_INDEX_MAX := 5
    sizeofUnit := 8
    g_unitInfo := fun t =>
      { movementType := if t = 2 then 4 else 0, indexStart := 0, indexEnd := 4 }
    MOVEMENT_WINGER := 4
    MOVEMENT_SLITHER := 5
    UNIT_SANDWORM := 25
    Script_Reset := fun e => { e with rest := 0 }
    Unit_GetHouseID := fun u => u.o.houseID }

/-- A record with every field set, standing for the previous content of memory. -/
def demoGarbage : Unit :=
  { o := { index := 9, type := 7, linkedID := 1,
           flags := { used := false, allocated := true, isNotOnMap := true,
                      variable_6_0001 := false, others := 5 },
           houseID := 3, script := { delay := 6, rest := 7 }, rest := 8 },
    variable_72_0 := 1, amount := 2, rest := 4 }

/-- A pool that was never initialised: no base, and houses of capacity two. -/
def demoPool : Pool :=
  { g_global := { unitStartPos := { ip := 0, cs := 0 }, unitCount := 3,
                  unitArray := fun _ => { ip := 0, cs := 0 }, variable_38BC := 0 }
    units := fun _ => demoGarbage
    houses := fun _ => { unitCount := 0, unitCountMax := 4 } }

/-- The address handed to `Unit_Init` in the instance. -/
def demoAddress : csip32 := { ip := 0x23, cs := 0x1000 }

/-- The state `Unit_Init(demoAddress)` produces from `demoPool`. -/
def demoInit : Pool :=
  { g_global := { unitStartPos := { ip := 3, cs := 0x1002 }, unitCount := 0,
                  unitArray := fun _ => { ip := 0, cs := 0 }, variable_38BC := 0 }
    units := fun i => if i < 5 then Unit.zero else demoGarbage
    houses := fun _ => { unitCount := 0, unitCountMax := 4 } }

/-- The address of slot `i` of the instance. -/
def demoSlot (i : Nat) : csip32 := { ip := 3 + 8 * i, cs := 0x1002 }

/-- The instance with the previous content of memory still in every slot. -/
def demoDirty : Pool := { demoInit with units := fun _ => demoGarbage }

/-- The instance after three allocations with `UNIT_INDEX_INVALID` and the release of the
record at slot `1`. -/
def demoB : Pool :=
  (run demoCfg demoInit
    [Call.allocate 0xFFFF 1 0, Call.allocate 0xFFFF 1 0, Call.allocate 0xFFFF 1 0,
     Call.free 1]).getD demoInit

/-- The state `demoB` with every house at its capacity of two units. -/
def demoFull : Pool := { demoB with houses := fun _ => { unitCount := 2, unitCountMax := 2 } }

/-- The calls of the scenario: three allocations that leave the choice of the slot to the
pool, the release of slot `1`, and an allocation that asks for slot `1` for another house. -/
def demoCalls : List Call :=
  [Call.allocate 0xFFFF 1 0, Call.allocate 0 1 0, Call.allocate 0xFFFF 2 0, Call.free 1,
   Call.allocate 1 1 1]

/-- The state the scenario `demoCalls` ends in. -/
def demoC : Pool := (run demoCfg demoInit demoCalls).getD demoInit

/-- An address whose segment arithmetic in `Unit_Init` wraps around to the base `0:0`. -/
def demoWrapAddress : csip32 := { ip := 0xFFF0, cs := 0xF001 }

/-- The state `Unit_Init(demoWrapAddress)` produces from `demoPool`. -/
def demoWrapped : Pool :=
  { g_global := { unitStartPos := { ip := 0, cs := 0 }, unitCount := 0,
                  unitArray := fun _ => { ip := 0, cs := 0 }, variable_38BC := 0 }
    units := fun _ => demoGarbage
    houses := fun _ => { unitCount := 0, unitCountMax := 4 } }

/-- The state `demoInit` with one live cache entry that lies outside the table. -/
def demoStale : Pool :=
  { demoInit with
    g_global := { demoInit.g_global with
      unitCount := 1
      unitArray := fun _ => { ip := 0, cs := 0x2000 } } }

/-- The calls of the scenario of a search: slots `0`, `1`, `2` allocated in this order for
the houses `0`, `0`, `1`, slot `1` released and allocated again for house `0`. -/
def demoCallsE : List Call :=
  [Call.allocate 0xFFFF 1 0, Call.allocate 0xFFFF 1 0, Call.allocate 0xFFFF 1 1,
   Call.free 1, Call.allocate 1 1 0]

/-- The state the calls `demoCallsE` end in: the live cache lists the slots `0`, `2`, `1`
and slot `2` belongs to another house than the slots `0` and `1`. -/
def demoE : Pool := (run demoCfg demoInit demoCallsE).getD demoInit

/-- A cursor that has not started and has no filter. -/
def demoFindAny : PoolFindStruct := { houseID := 0xFFFF, type := 0xFFFF, index := 0xFFFF }

/-- A cursor that has not started and asks for the units of house `0` of any type. -/
def demoFindHouse : PoolFindStruct := { houseID := 0, type := 0xFFFF, index := 0xFFFF }

/-! ## Lemmas on `Unit_Allocate` -/

theorem Unit_Allocate_cases (cfg : Config) (s : Pool) (index type houseID : Nat)
    (ht : type ≠ 0xFF) (hh : houseID ≠ 0xFF) (hb : s.g_global.unitStartPos.csip ≠ 0)
    (hc : passesCapacityCheck cfg s type houseID) :
    Unit_Allocate cfg s index type houseID =
      match Unit_Allocate.select cfg s index type with
      | none => none
      | some none => some (none, s)
      | some (some j) => some (some j, Unit_Allocate.commit cfg s j type houseID) := by
  have hc' : ¬ ((s.houses (House_Get_ByIndex houseID)).unitCount
        ≥ (s.houses (House_Get_ByIndex houseID)).unitCountMax
      ∧ (cfg.g_unitInfo type).movementType ≠ cfg.MOVEMENT_WINGER
      ∧ (cfg.g_unitInfo type).movementType ≠ cfg.MOVEMENT_SLITHER
      ∧ s.g_global.variable_38BC = 0) := by
    rintro ⟨h1, h2, h3, h4⟩
    rcases hc with h | h | h | h
    · exact absurd h1 (Nat.not_le.mpr h)
    · exact h2 h
    · exact h3 h
    · exact h h4
  unfold Unit_Allocate
  rw [if_neg (by rintro (h | h); exact ht h; exact hh h), if_neg hb]
  simp only []
  rw [if_neg hc']

theorem Unit_Allocate_result (cfg : Config) (s s' : Pool) (index type houseID : Nat)
    (r : Option Nat) (h : Unit_Allocate cfg s index type houseID = some (r, s')) :
    (r = none ∧ s' = s) ∨
      (∃ j, r = some j ∧ s' = Unit_Allocate.commit cfg s j type houseID
        ∧ Unit_Allocate.select cfg s index type = some (some j)) := by
  unfold Unit_Allocate at h
  by_cases h1 : type = 0xFF ∨ houseID = 0xFF
  · rw [if_pos h1] at h
    simp only [Option.some.injEq, Prod.mk.injEq] at h
    exact Or.inl ⟨h.1.symm, h.2.symm⟩
  rw [if_neg h1] at h
  by_cases h2 : s.g_global.unitStartPos.csip = 0
  · rw [if_pos h2] at h
    simp only [Option.some.injEq, Prod.mk.injEq] at h
    exact Or.inl ⟨h.1.symm, h.2.symm⟩
  rw [if_neg h2] at h
  simp only [] at h
  split_ifs at h with h3
  · simp only [Option.some.injEq, Prod.mk.injEq] at h
    exact Or.inl ⟨h.1.symm, h.2.symm⟩
  · cases hsel : Unit_Allocate.select cfg s index type with
    | none => rw [hsel] at h; simp at h
    | some o =>
      cases o with
      | none =>
        rw [hsel] at h
        simp only [Option.some.injEq, Prod.mk.injEq] at h
        exact Or.inl ⟨h.1.symm, h.2.symm⟩
      | some j =>
        rw [hsel] at h
        simp only [Option.some.injEq, Prod.mk.injEq] at h
        exact Or.inr ⟨j, h.1.symm, h.2.symm, rfl⟩

theorem scan_found (cfg : Config) (s : Pool) :
    ∀ (n a j : Nat), a ≤ j → j < a + n → j < cfg.UNIT_INDEX_MAX →
      (s.units j).o.flags.used = false →
      (∀ k, a ≤ k → k < j → (s.units k).o.flags.used = true) →
      Unit_Allocate.scan cfg s n a = some (some j) := by
  intro n
  induction n with
  | zero => intro a j h1 h2; omega
  | succ n ih =>
    intro a j h1 h2 h3 h4 h5
    have ha : a < cfg.UNIT_INDEX_MAX := by omega
    simp only [Unit_Allocate.scan, Unit_Get_ByIndex, if_pos ha]
    by_cases haj : a = j
    · subst haj
      simp [h4]
    · have hu := h5 a (le_refl a) (by omega)
      simp only [hu, Bool.not_true, Bool.false_eq_true, if_false]
      exact ih (a + 1) j (by omega) (by omega) h3 h4
        (fun k hk1 hk2 => h5 k (by omega) hk2)

theorem scan_full (cfg : Config) (s : Pool) :
    ∀ (n a : Nat), a + n ≤ cfg.UNIT_INDEX_MAX →
      (∀ k, a ≤ k → k < a + n → (s.units k).o.flags.used = true) →
      Unit_Allocate.scan cfg s n a = some none := by
  intro n
  induction n with
  | zero => intro a _ _; rfl
  | succ n ih =>
    intro a h1 h2
    have ha : a < cfg.UNIT_INDEX_MAX := by omega
    have hu := h2 a (le_refl a) (by omega)
    simp only [Unit_Allocate.scan, Unit_Get_ByIndex, if_pos ha, hu, Bool.not_true,
      Bool.false_eq_true, if_false]
    exact ih (a + 1) (by omega) (fun k hk1 hk2 => h2 k (by omega) (by omega))

theorem scan_sound (cfg : Config) (s : Pool) :
    ∀ (n a j : Nat), Unit_Allocate.scan cfg s n a = some (some j) →
      a ≤ j ∧ j < a + n ∧ j < cfg.UNIT_INDEX_MAX ∧ (s.units j).o.flags.used = false
        ∧ ∀ k, a ≤ k → k < j → (s.units k).o.flags.used = true := by
  intro n
  induction n with
  | zero => intro a j h; simp [Unit_Allocate.scan] at h
  | succ n ih =>
    intro a j h
    simp only [Unit_Allocate.scan, Unit_Get_ByIndex] at h
    by_cases ha : a < cfg.UNIT_INDEX_MAX
    · simp only [if_pos ha] at h
      cases hu : (s.units a).o.flags.used with
      | false =>
        simp only [hu, Bool.not_false, if_true, Option.some.injEq] at h
        subst h
        exact ⟨le_refl _, by omega, ha, hu, fun k hk1 hk2 => by omega⟩
      | true =>
        simp only [hu, Bool.not_true, Bool.false_eq_true, if_false] at h
        obtain ⟨h1, h2, h3, h4, h5⟩ := ih (a + 1) j h
        refine ⟨by omega, by omega, h3, h4, fun k hk1 hk2 => ?_⟩
        by_cases hka : k = a
        · subst hka; exact hu
        · exact h5 k (by omega) hk2
    · simp [if_neg ha] at h

theorem select_auto (cfg : Config) (s : Pool) (index type : Nat)
    (h : index = 0 ∨ index = UNIT_INDEX_INVALID) :
    Unit_Allocate.select cfg s index type =
      Unit_Allocate.scan cfg s
        ((cfg.g_unitInfo type).indexEnd + 1 - (cfg.g_unitInfo type).indexStart)
        (cfg.g_unitInfo type).indexStart := by
  unfold Unit_Allocate.select
  rw [if_pos h]

theorem select_explicit (cfg : Config) (s : Pool) (index type : Nat)
    (h0 : index ≠ 0) (h1 : index ≠ UNIT_INDEX_INVALID) (h2 : index < cfg.UNIT_INDEX_MAX) :
    Unit_Allocate.select cfg s index type =
      if (s.units index).o.flags.used then some none else some (some index) := by
  unfold Unit_Allocate.select
  rw [if_neg (by rintro (h | h); exact h0 h; exact h1 h)]
  simp only [Unit_Get_ByIndex, if_pos h2]

theorem liveCache_commit (cfg : Config) (s : Pool) (j type houseID : Nat)
    (hroom : s.g_global.unitCount + 1 < 65536) :
    liveCache (Unit_Allocate.commit cfg s j type houseID)
      = liveCache s ++ [unitAddress cfg s j] := by
  simp only [liveCache, Unit_Allocate.commit, Nat.mod_eq_of_lt hroom, List.range_succ,
    List.map_append, List.map_cons, List.map_nil, Function.update_same]
  congr 1
  apply List.map_congr_left
  intro k hk
  rw [List.mem_range] at hk
  exact Function.update_noteq (Nat.ne_of_lt hk) _ _

theorem Unit_Allocate_select_none (cfg : Config) (s : Pool) (index type houseID : Nat)
    (h : Unit_Allocate.select cfg s index type = some none) :
    Unit_Allocate cfg s index type houseID = some (none, s) := by
  unfold Unit_Allocate
  split_ifs <;> first | rfl | skip
  simp only []
  split_ifs
  · rfl
  · rw [h]

theorem allocateAuto_fill (cfg : Config) (type houseID : Nat)
    (ht : type ≠ 0xFF) (hh : houseID ≠ 0xFF)
    (hend : (cfg.g_unitInfo type).indexEnd < cfg.UNIT_INDEX_MAX) :
    ∀ (k : Nat) (s : Pool) (a : Nat),
      s.g_global.unitStartPos.csip ≠ 0 →
      (cfg.g_unitInfo type).indexStart ≤ a → a + k ≤ (cfg.g_unitInfo type).indexEnd + 1 →
      (∀ j, (cfg.g_unitInfo type).indexStart ≤ j → j < a →
        (s.units j).o.flags.used = true) →
      (∀ j, a ≤ j → j ≤ (cfg.g_unitInfo type).indexEnd →
        (s.units j).o.flags.used = false) →
      (s.houses (House_Get_ByIndex houseID)).unitCount + k
        ≤ (s.houses (House_Get_ByIndex houseID)).unitCountMax →
      (s.houses (House_Get_ByIndex houseID)).unitCountMax < 65536 →
      s.g_global.unitCount + k < 65536 →
      ∃ s', allocateAuto cfg type houseID k s
            = some ((List.range k).map (fun i => some (a + i)), s')
        ∧ liveCache s' = liveCache s ++ (List.range k).map (fun i => unitAddress cfg s (a + i))
        ∧ (s'.houses (House_Get_ByIndex houseID)).unitCount
            = (s.houses (House_Get_ByIndex houseID)).unitCount + k
        ∧ s'.g_global.unitStartPos = s.g_global.unitStartPos
        ∧ (∀ j, (cfg.g_unitInfo type).indexStart ≤ j → j < a + k →
            (s'.units j).o.flags.used = true) := by
  intro k
  induction k with
  | zero =>
    intro s a _ _ _ hused _ _ _ _
    exact ⟨s, rfl, by simp, rfl, rfl, hused⟩
  | succ k ih =>
    intro s a hb ha1 ha2 hused hfree hcap hcap16 hroom
    have hc : passesCapacityCheck cfg s type houseID := Or.inl (by omega)
    have hsel : Unit_Allocate.select cfg s UNIT_INDEX_INVALID type = some (some a) := by
      rw [select_auto cfg s _ type (Or.inr rfl)]
      exact scan_found cfg s _ _ a ha1 (by omega) (by omega) (hfree a (le_refl a) (by omega))
        (fun j hj1 hj2 => hused j hj1 hj2)
    have hcall := Unit_Allocate_cases cfg s UNIT_INDEX_INVALID type houseID ht hh hb hc
    rw [hsel] at hcall
    have hcount : ((Unit_Allocate.commit cfg s a type houseID).houses
        (House_Get_ByIndex houseID)).unitCount
        = (s.houses (House_Get_ByIndex houseID)).unitCount + 1 := by
      simp only [Unit_Allocate.commit, Function.update_same]
      exact Nat.mod_eq_of_lt (by omega)
    have hmaxc : ((Unit_Allocate.commit cfg s a type houseID).houses
        (House_Get_ByIndex houseID)).unitCountMax
        = (s.houses (House_Get_ByIndex houseID)).unitCountMax := by
      simp only [Unit_Allocate.commit, Function.update_same]
    have hcnt : (Unit_Allocate.commit cfg s a type houseID).g_global.unitCount
        = s.g_global.unitCount + 1 := by
      simp only [Unit_Allocate.commit]
      exact Nat.mod_eq_of_lt (by omega)
    have hunits : ∀ j, ((Unit_Allocate.commit cfg s a type houseID).units j).o.flags.used
        = if j = a then true else (s.units j).o.flags.used := by
      intro j
      by_cases hja : j = a
      · subst hja
        simp [Unit_Allocate.commit, Unit_Allocate.record]
      · simp [Unit_Allocate.commit, Function.update_noteq hja, hja]
    obtain ⟨s', h1, h2, h3, h4, h5⟩ := ih (Unit_Allocate.commit cfg s a type houseID) (a + 1)
      hb (by omega) (by omega)
      (fun j hj1 hj2 => by
        rw [hunits j]
        by_cases hja : j = a
        · simp [hja]
        · simp only [hja, if_false]
          exact hused j hj1 (by omega))
      (fun j hj1 hj2 => by
        rw [hunits j]
        have hja : j ≠ a := by omega
        simp only [hja, if_false]
        exact hfree j (by omega) hj2)
      (by rw [hcount, hmaxc]; omega) (by rw [hmaxc]; exact hcap16) (by rw [hcnt]; omega)
    refine ⟨s', ?_, ?_, ?_, h4, fun j hj1 hj2 => h5 j hj1 (by omega)⟩
    · simp only [allocateAuto, hcall, h1, List.range_succ_eq_map, List.map_cons, List.map_map,
        Nat.add_zero]
      congr 3
      apply List.map_congr_left
      intro i _
      simp only [Function.comp, Nat.succ_eq_add_one]
      congr 1
      omega
    · rw [h2, liveCache_commit cfg s a type houseID (by omega), List.range_succ_eq_map,
        List.map_cons, List.map_map, List.append_assoc, Nat.add_zero, List.singleton_append]
      congr 2
      apply List.map_congr_left
      intro i _
      simp only [Function.comp, Nat.succ_eq_add_one, unitAddress]
      have e : a + 1 + i = a + (i + 1) := by omega
      rw [e]
      rfl
    · rw [h3, hcount]
      omega

/-! ## Lemmas on filtered ranges and on `Unit_Free` -/

theorem filter_range_cons (n j : Nat) (p q : Nat → Bool) (hj : j < n) (hpj : p j = false)
    (hq : ∀ i, q i = (decide (i = j) || p i)) :
    List.Perm ((List.range n).filter q) (j :: (List.range n).filter p) := by
  have hnd : (List.range n).Nodup := List.nodup_range n
  rw [List.perm_ext_iff_of_nodup (hnd.filter _)
    (List.nodup_cons.mpr ⟨by simp [List.mem_filter, hpj], hnd.filter _⟩)]
  intro a
  simp only [List.mem_filter, List.mem_range, List.mem_cons, hq, Bool.or_eq_true,
    decide_eq_true_eq]
  constructor
  · rintro ⟨h1, h2 | h2⟩
    · exact Or.inl h2
    · exact Or.inr ⟨h1, h2⟩
  · rintro (h | ⟨h1, h2⟩)
    · subst h; exact ⟨hj, Or.inl rfl⟩
    · exact ⟨h1, Or.inr h2⟩

theorem filter_range_congr (n : Nat) (p q : Nat → Bool) (h : ∀ i, i < n → q i = p i) :
    (List.range n).filter q = (List.range n).filter p := by
  apply List.filter_congr
  intro i hi
  exact h i (List.mem_range.mp hi)

theorem Unit_Free_scan_spec (unitArray : Nat → csip32) (ucsip : csip32) :
    ∀ (n i : Nat),
      i ≤ Unit_Free.scan unitArray ucsip n i
        ∧ Unit_Free.scan unitArray ucsip n i ≤ i + n
        ∧ (Unit_Free.scan unitArray ucsip n i < i + n →
            (unitArray (Unit_Free.scan unitArray ucsip n i)).csip = ucsip.csip)
        ∧ ∀ k, i ≤ k → k < Unit_Free.scan unitArray ucsip n i →
            (unitArray k).csip ≠ ucsip.csip := by
  intro n
  induction n with
  | zero =>
    intro i
    simp only [Unit_Free.scan]
    exact ⟨le_refl _, by omega, fun h => absurd h (by omega), fun k h1 h2 => by omega⟩
  | succ n ih =>
    intro i
    by_cases hi : (unitArray i).csip = ucsip.csip
    · have e : Unit_Free.scan unitArray ucsip (n + 1) i = i := by
        simp [Unit_Free.scan, hi]
      rw [e]
      exact ⟨le_refl _, by omega, fun _ => hi, fun k h1 h2 => by omega⟩
    · have e : Unit_Free.scan unitArray ucsip (n + 1) i
          = Unit_Free.scan unitArray ucsip n (i + 1) := by
        simp [Unit_Free.scan, hi]
      rw [e]
      obtain ⟨h1, h2, h3, h4⟩ := ih (i + 1)
      refine ⟨by omega, by omega, fun h => h3 (by omega), fun k hk1 hk2 => ?_⟩
      by_cases hki : k = i
      · subst hki; exact hi
      · exact h4 k (by omega) hk2

theorem liveCache_eraseIdx (a b : Nat → csip32) (n i : Nat) (hi : i < n)
    (hb : ∀ k, k < n - 1 → b k = if k < i then a k else a (k + 1)) :
    (List.range (n - 1)).map b = ((List.range n).map a).eraseIdx i := by
  apply List.ext_getElem
  · rw [List.length_eraseIdx]
    simp [hi]
  · intro k h1 h2
    simp only [List.length_map, List.length_range] at h1
    rw [List.getElem_eraseIdx]
    simp only [List.getElem_map, List.getElem_range]
    rw [hb k h1]
    by_cases hk : k < i
    · simp [hk]
    · simp [hk]

theorem Unit_Free_some (cfg : Config) (s : Pool) (u : Nat)
    (hi : Unit_Free.scan s.g_global.unitArray (unitAddress cfg s (s.units u).o.index)
      s.g_global.unitCount 0 < s.g_global.unitCount)
    (h16 : s.g_global.unitCount < 65536) :
    ∃ s', Unit_Free cfg s u = some s'
      ∧ s'.units = Function.update s.units u
          { s.units u with
            o := { (s.units u).o with
              flags := ObjectFlags.zero
              script := cfg.Script_Reset (s.units u).o.script } }
      ∧ s'.houses = Function.update s.houses (House_Get_ByIndex (s.units u).o.houseID)
          { s.houses (House_Get_ByIndex (s.units u).o.houseID) with
            unitCount :=
              ((s.houses (House_Get_ByIndex (s.units u).o.houseID)).unitCount + 65535)
                % 65536 }
      ∧ s'.g_global.unitStartPos = s.g_global.unitStartPos
      ∧ s'.g_global.variable_38BC = s.g_global.variable_38BC
      ∧ s'.g_global.unitCount = s.g_global.unitCount - 1
      ∧ liveCache s' = (liveCache s).eraseIdx
          (Unit_Free.scan s.g_global.unitArray (unitAddress cfg s (s.units u).o.index)
            s.g_global.unitCount 0) := by
  have hdec : (s.g_global.unitCount + 65535) % 65536 = s.g_global.unitCount - 1 := by omega
  unfold Unit_Free
  dsimp only
  rw [if_pos hi, hdec]
  split_ifs with hlast
  · refine ⟨_, rfl, rfl, rfl, rfl, rfl, rfl, ?_⟩
    simp only [liveCache]
    apply liveCache_eraseIdx _ _ _ _ hi
    intro k hk
    rw [if_pos (by omega)]
  · refine ⟨_, rfl, rfl, rfl, rfl, rfl, rfl, ?_⟩
    simp only [liveCache]
    apply liveCache_eraseIdx _ _ _ _ hi
    intro k hk
    simp only [memmoveDown]
    by_cases hki : k <
        Unit_Free.scan s.g_global.unitArray (unitAddress cfg s (s.units u).o.index)
          s.g_global.unitCount 0
    · rw [if_neg (by omega), if_pos hki]
    · rw [if_pos (by omega), if_neg hki]

/-! ## Preservation of consistency -/

theorem scan_total (cfg : Config) (s : Pool) :
    ∀ (n a : Nat), (n = 0 ∨ a + n ≤ cfg.UNIT_INDEX_MAX) →
      ∃ r, Unit_Allocate.scan cfg s n a = some r := by
  intro n
  induction n with
  | zero => intro a _; exact ⟨none, rfl⟩
  | succ n ih =>
    intro a h
    have ha : a < cfg.UNIT_INDEX_MAX := by omega
    simp only [Unit_Allocate.scan, Unit_Get_ByIndex, if_pos ha]
    split_ifs
    · exact ⟨_, rfl⟩
    · exact ih (a + 1) (by omega)

theorem select_total (cfg : Config) (s : Pool) (index type : Nat)
    (hi : index < cfg.UNIT_INDEX_MAX ∨ index = UNIT_INDEX_INVALID)
    (hend : (cfg.g_unitInfo type).indexEnd < cfg.UNIT_INDEX_MAX) :
    ∃ r, Unit_Allocate.select cfg s index type = some r := by
  by_cases hauto : index = 0 ∨ index = UNIT_INDEX_INVALID
  · rw [select_auto cfg s index type hauto]
    exact scan_total cfg s _ _ (by omega)
  · have h2 : index < cfg.UNIT_INDEX_MAX := by
      rcases hi with h | h
      · exact h
      · exact absurd (Or.inr h) hauto
    rw [select_explicit cfg s index type (fun h => hauto (Or.inl h))
      (fun h => hauto (Or.inr h)) h2]
    split_ifs
    · exact ⟨_, rfl⟩
    · exact ⟨_, rfl⟩

theorem select_sound (cfg : Config) (s : Pool) (index type j : Nat)
    (h : Unit_Allocate.select cfg s index type = some (some j)) :
    j < cfg.UNIT_INDEX_MAX ∧ (s.units j).o.flags.used = false := by
  by_cases hauto : index = 0 ∨ index = UNIT_INDEX_INVALID
  · rw [select_auto cfg s index type hauto] at h
    obtain ⟨_, _, h3, h4, _⟩ := scan_sound cfg s _ _ _ h
    exact ⟨h3, h4⟩
  · unfold Unit_Allocate.select at h
    rw [if_neg hauto] at h
    simp only [Unit_Get_ByIndex] at h
    by_cases h2 : index < cfg.UNIT_INDEX_MAX
    · simp only [if_pos h2] at h
      cases hu : (s.units index).o.flags.used with
      | true => simp [hu] at h
      | false =>
        simp only [hu, Bool.false_eq_true, if_false, Option.some.injEq] at h
        subst h
        exact ⟨h2, hu⟩
    · simp [if_neg h2] at h

theorem Unit_Allocate_total (cfg : Config) (s : Pool) (index type houseID : Nat)
    (h : ∃ r, Unit_Allocate.select cfg s index type = some r) :
    ∃ r s', Unit_Allocate cfg s index type houseID = some (r, s') := by
  obtain ⟨r, hr⟩ := h
  unfold Unit_Allocate
  split_ifs <;> first | exact ⟨_, _, rfl⟩ | skip
  dsimp only
  split_ifs
  · exact ⟨_, _, rfl⟩
  · rw [hr]
    cases r with
    | none => exact ⟨_, _, rfl⟩
    | some j => exact ⟨_, _, rfl⟩

theorem usedSlots_length_lt (cfg : Config) (s : Pool) (j : Nat)
    (hj : j < cfg.UNIT_INDEX_MAX) (hu : (s.units j).o.flags.used = false) :
    (usedSlots cfg s).length < cfg.UNIT_INDEX_MAX := by
  have h : ((List.range cfg.UNIT_INDEX_MAX).filter
      (fun i => (s.units i).o.flags.used)).length < (List.range cfg.UNIT_INDEX_MAX).length :=
    List.length_filter_lt_length_iff_exists.mpr ⟨j, List.mem_range.mpr hj, by simp [hu]⟩
  simpa [usedSlots] using h

theorem usedSlotsOf_length_le (cfg : Config) (s : Pool) (o : Nat) :
    (usedSlotsOf cfg s o).length ≤ (usedSlots cfg s).length := by
  have hsub : List.Sublist (usedSlotsOf cfg s o) (usedSlots cfg s) := by
    unfold usedSlotsOf usedSlots
    apply List.monotone_filter_right
    intro i hi
    simp only [Bool.and_eq_true] at hi
    exact hi.1
  exact hsub.length_le

theorem Consistent.count_eq {cfg : Config} {s : Pool} (h : Consistent cfg s) :
    s.g_global.unitCount = (usedSlots cfg s).length := by
  have := h.cache.length_eq
  simpa [liveCache] using this

theorem unitAddress_congr (cfg : Config) (s s' : Pool)
    (h : s'.g_global.unitStartPos = s.g_global.unitStartPos) :
    unitAddress cfg s' = unitAddress cfg s := by
  funext i
  simp only [unitAddress, h]

theorem Consistent_commit (cfg : Config) (s : Pool) (j type houseID : Nat)
    (hmax : cfg.UNIT_INDEX_MAX ≤ 0xFFFF) (hc : Consistent cfg s)
    (hj : j < cfg.UNIT_INDEX_MAX) (hu : (s.units j).o.flags.used = false) :
    Consistent cfg (Unit_Allocate.commit cfg s j type houseID) := by
  have hlt := usedSlots_length_lt cfg s j hj hu
  have hcnt := hc.count_eq
  have hused : ∀ i, ((Unit_Allocate.commit cfg s j type houseID).units i).o.flags.used
      = (decide (i = j) || (s.units i).o.flags.used) := by
    intro i
    by_cases hij : i = j
    · subst hij
      simp [Unit_Allocate.commit, Unit_Allocate.record]
    · simp [Unit_Allocate.commit, Function.update_noteq hij, hij]
  constructor
  · rw [liveCache_commit cfg s j type houseID (by omega),
      unitAddress_congr cfg (Unit_Allocate.commit cfg s j type houseID) s rfl]
    have hp : List.Perm (usedSlots cfg (Unit_Allocate.commit cfg s j type houseID))
        (j :: usedSlots cfg s) :=
      filter_range_cons _ j _ _ hj hu hused
    refine (List.perm_append_singleton _ _).trans ?_
    refine List.Perm.trans ?_ (hp.map (unitAddress cfg s)).symm
    rw [List.map_cons]
    exact List.Perm.cons _ hc.cache
  · intro i hi hui
    by_cases hij : i = j
    · subst hij
      simp [Unit_Allocate.commit, Unit_Allocate.record]
    · rw [hused i] at hui
      simp only [hij, decide_False, Bool.false_or] at hui
      simp only [Unit_Allocate.commit, Function.update_noteq hij]
      exact hc.index i hi hui

theorem OwnersExact_commit (cfg : Config) (s : Pool) (j type houseID : Nat)
    (hmax : cfg.UNIT_INDEX_MAX ≤ 0xFFFF) (ho : OwnersExact cfg s)
    (hj : j < cfg.UNIT_INDEX_MAX) (hu : (s.units j).o.flags.used = false) :
    OwnersExact cfg (Unit_Allocate.commit cfg s j type houseID) := by
  intro o
  have hlt := usedSlots_length_lt cfg s j hj hu
  have hle := usedSlotsOf_length_le cfg s o
  have hso := ho o
  by_cases hoh : o = houseID
  · subst hoh
    have hp : List.Perm (usedSlotsOf cfg (Unit_Allocate.commit cfg s j type o) o)
        (j :: usedSlotsOf cfg s o) := by
      refine filter_range_cons _ j _ _ hj (by simp [hu]) ?_
      intro i
      by_cases hij : i = j
      · subst hij
        simp [Unit_Allocate.commit, Unit_Allocate.record]
      · simp [Unit_Allocate.commit, Function.update_noteq hij, hij]
    rw [hp.length_eq, List.length_cons]
    simp only [Unit_Allocate.commit, House_Get_ByIndex, Function.update_same]
    rw [hso]
    exact Nat.mod_eq_of_lt (by omega)
  · have he : usedSlotsOf cfg (Unit_Allocate.commit cfg s j type houseID) o
        = usedSlotsOf cfg s o := by
      refine filter_range_congr _ _ _ ?_
      intro i _
      by_cases hij : i = j
      · subst hij
        simp [Unit_Allocate.commit, Unit_Allocate.record, hu, Ne.symm hoh]
      · simp [Unit_Allocate.commit, Function.update_noteq hij]
    rw [he, ← hso]
    simp only [Unit_Allocate.commit, House_Get_ByIndex, Function.update_noteq hoh]

theorem perm_cons_eraseIdx {α : Type} :
    ∀ (l : List α) (i : Nat) (h : i < l.length), List.Perm l (l[i] :: l.eraseIdx i) := by
  intro l
  induction l with
  | nil => intro i h; simp at h
  | cons a l ih =>
    intro i h
    cases i with
    | zero => exact List.Perm.refl _
    | succ i =>
      simp only [List.length_cons, Nat.add_lt_add_iff_right] at h
      simp only [List.getElem_cons_succ, List.eraseIdx_cons_succ]
      exact ((ih i h).cons a).trans (List.Perm.swap _ _ _)

theorem unitAddress_eq_of_csip (cfg : Config) (s : Pool) (i j : Nat)
    (h : (unitAddress cfg s i).csip = (unitAddress cfg s j).csip) :
    unitAddress cfg s i = unitAddress cfg s j := by
  simp only [unitAddress, csip32.csip] at h
  simp only [unitAddress, csip32.mk.injEq, and_true]
  omega

theorem Unit_Free_consistent (cfg : Config) (s : Pool) (u : Nat)
    (hmax : cfg.UNIT_INDEX_MAX ≤ 0xFFFF) (hc : Consistent cfg s)
    (hu : u < cfg.UNIT_INDEX_MAX) (hused : (s.units u).o.flags.used = true) :
    ∃ s', Unit_Free cfg s u = some s' ∧ Consistent cfg s'
      ∧ (OwnersExact cfg s → OwnersExact cfg s') := by
  have hidx : (s.units u).o.index = u := hc.index u hu hused
  have hmemU : u ∈ usedSlots cfg s := by
    simp [usedSlots, List.mem_filter, hu, hused]
  have hmemA : unitAddress cfg s u ∈ liveCache s :=
    hc.cache.mem_iff.mpr (List.mem_map.mpr ⟨u, hmemU, rfl⟩)
  obtain ⟨k0, hk0, hk0e⟩ : ∃ k, k < s.g_global.unitCount
      ∧ s.g_global.unitArray k = unitAddress cfg s u := by
    simp only [liveCache, List.mem_map, List.mem_range] at hmemA
    exact hmemA
  have hcnt := hc.count_eq
  have hle : (usedSlots cfg s).length ≤ cfg.UNIT_INDEX_MAX := by
    have := List.length_filter_le (fun i => (s.units i).o.flags.used)
      (List.range cfg.UNIT_INDEX_MAX)
    simpa [usedSlots] using this
  obtain ⟨h1, h2, h3, h4⟩ := Unit_Free_scan_spec s.g_global.unitArray
    (unitAddress cfg s (s.units u).o.index) s.g_global.unitCount 0
  rw [hidx] at h1 h2 h3 h4
  have hi : Unit_Free.scan s.g_global.unitArray (unitAddress cfg s u) s.g_global.unitCount 0
      < s.g_global.unitCount := by
    by_contra hn
    exact h4 k0 (Nat.zero_le _) (by omega) (by rw [hk0e])
  obtain ⟨s', e1, e2, e3, e4, _, _, e7⟩ := Unit_Free_some cfg s u (by rw [hidx]; exact hi)
    (by omega)
  rw [hidx] at e7
  refine ⟨s', e1, ?_, ?_⟩
  · have hused' : ∀ i, (s.units i).o.flags.used
        = (decide (i = u) || (s'.units i).o.flags.used) := by
      intro i
      by_cases hiu : i = u
      · subst hiu; simp [hused]
      · simp [e2, Function.update_noteq hiu, hiu]
    have hu' : (s'.units u).o.flags.used = false := by
      simp [e2, ObjectFlags.zero]
    have hp : List.Perm (usedSlots cfg s) (u :: usedSlots cfg s') :=
      filter_range_cons _ u _ _ hu hu' hused'
    have hlen : Unit_Free.scan s.g_global.unitArray (unitAddress cfg s u)
        s.g_global.unitCount 0 < (liveCache s).length := by
      simpa [liveCache] using hi
    have hget : (liveCache s)[Unit_Free.scan s.g_global.unitArray (unitAddress cfg s u)
        s.g_global.unitCount 0] = unitAddress cfg s u := by
      have hmem : (liveCache s)[Unit_Free.scan s.g_global.unitArray (unitAddress cfg s u)
          s.g_global.unitCount 0] ∈ liveCache s := List.getElem_mem _
      obtain ⟨m, _, hm⟩ := List.mem_map.mp (hc.cache.mem_iff.mp hmem)
      have hval : (liveCache s)[Unit_Free.scan s.g_global.unitArray (unitAddress cfg s u)
          s.g_global.unitCount 0]
          = s.g_global.unitArray (Unit_Free.scan s.g_global.unitArray (unitAddress cfg s u)
              s.g_global.unitCount 0) := by
        simp [liveCache]
      rw [← hm]
      apply unitAddress_eq_of_csip
      rw [hm, hval]
      exact h3 (by omega)
    constructor
    · rw [unitAddress_congr cfg s s' e4, e7]
      have hp1 := perm_cons_eraseIdx (liveCache s) _ hlen
      rw [hget] at hp1
      have hp2 : List.Perm (unitAddress cfg s u :: (liveCache s).eraseIdx
          (Unit_Free.scan s.g_global.unitArray (unitAddress cfg s u) s.g_global.unitCount 0))
          (unitAddress cfg s u :: (usedSlots cfg s').map (unitAddress cfg s)) := by
        refine hp1.symm.trans (hc.cache.trans ?_)
        have := hp.map (unitAddress cfg s)
        rwa [List.map_cons] at this
      exact hp2.cons_inv
    · intro i hi' hui
      by_cases hiu : i = u
      · subst hiu
        rw [hu'] at hui
        exact absurd hui (by simp)
      · have hsame : s'.units i = s.units i := by rw [e2, Function.update_noteq hiu]
        rw [hsame] at hui ⊢
        exact hc.index i hi' hui
  · intro ho o
    have hso := ho o
    have hle2 := usedSlotsOf_length_le cfg s o
    by_cases hoh : o = (s.units u).o.houseID
    · have hp : List.Perm (usedSlotsOf cfg s o) (u :: usedSlotsOf cfg s' o) := by
        refine filter_range_cons _ u _ _ hu (by simp [e2, ObjectFlags.zero]) ?_
        intro i
        by_cases hiu : i = u
        · subst hiu; simp [hused, hoh]
        · simp [e2, Function.update_noteq hiu, hiu]
      have hlen := hp.length_eq
      rw [List.length_cons] at hlen
      rw [e3, hoh]
      simp only [House_Get_ByIndex, Function.update_same]
      rw [← hoh, hso]
      omega
    · have he : usedSlotsOf cfg s' o = usedSlotsOf cfg s o := by
        refine filter_range_congr _ _ _ ?_
        intro i _
        by_cases hiu : i = u
        · subst hiu
          simp [e2, ObjectFlags.zero, Ne.symm hoh]
        · simp [e2, Function.update_noteq hiu]
      rw [he, ← hso, e3]
      simp only [House_Get_ByIndex, Function.update_noteq hoh]

theorem step_consistent (cfg : Config) (hmax : cfg.UNIT_INDEX_MAX ≤ 0xFFFF) (s : Pool)
    (c : Call) (hc : Consistent cfg s) (ha : c.admissible cfg s = true) :
    ∃ s', c.step cfg s = some s' ∧ Consistent cfg s'
      ∧ (OwnersExact cfg s → OwnersExact cfg s') := by
  cases c with
  | allocate index type houseID =>
    simp only [Call.admissible, Bool.and_eq_true, Bool.or_eq_true, decide_eq_true_eq] at ha
    obtain ⟨r, s', hr⟩ := Unit_Allocate_total cfg s index type houseID
      (select_total cfg s index type ha.1 ha.2)
    refine ⟨s', by simp [Call.step, hr], ?_⟩
    rcases Unit_Allocate_result cfg s s' index type houseID r hr with
      ⟨_, h2⟩ | ⟨j, _, h2, h3⟩
    · subst h2
      exact ⟨hc, id⟩
    · obtain ⟨hj, hu⟩ := select_sound cfg s index type j h3
      subst h2
      exact ⟨Consistent_commit cfg s j type houseID hmax hc hj hu,
        fun ho => OwnersExact_commit cfg s j type houseID hmax ho hj hu⟩
  | free u =>
    simp only [Call.admissible, Bool.and_eq_true, decide_eq_true_eq] at ha
    exact Unit_Free_consistent cfg s u hmax hc ha.1 ha.2

theorem run_consistent (cfg : Config) (hmax : cfg.UNIT_INDEX_MAX ≤ 0xFFFF) :
    ∀ (calls : List Call) (s : Pool), Consistent cfg s → admissible cfg s calls = true →
      ∃ s', run cfg s calls = some s' ∧ Consistent cfg s'
        ∧ (OwnersExact cfg s → OwnersExact cfg s') := by
  intro calls
  induction calls with
  | nil => intro s hc _; exact ⟨s, rfl, hc, id⟩
  | cons c cs ih =>
    intro s hc ha
    simp only [admissible, Bool.and_eq_true] at ha
    obtain ⟨s1, h1, hc1, ho1⟩ := step_consistent cfg hmax s c hc ha.1
    have ha2 := ha.2
    rw [h1] at ha2
    obtain ⟨s', h2, hc2, ho2⟩ := ih s1 hc1 ha2
    exact ⟨s', by simp only [run, h1, h2], hc2, fun ho => ho2 (ho1 ho)⟩

theorem Unit_Init_consistent (cfg : Config) (s s0 : Pool) (address : csip32)
    (hinit : Unit_Init cfg s address = some s0)
    (hb : s0.g_global.unitStartPos.csip ≠ 0) :
    Consistent cfg s0 ∧ s0.houses = s.houses ∧ usedSlots cfg s0 = [] := by
  unfold Unit_Init at hinit
  dsimp only at hinit
  split_ifs at hinit with h1 h2 h3
  · simp only [Option.some.injEq] at hinit
    subst hinit
    exact absurd h2 hb
  · simp only [Unit_Get_ByIndex] at hinit
    split_ifs at hinit with h0
    simp only [Option.some.injEq] at hinit
    subst hinit
    have hnil : usedSlots cfg
        { s with
          g_global := { s.g_global with
            unitCount := 0
            unitStartPos :=
              { cs := (address.cs + address.ip / 16) % 65536, ip := address.ip % 16 } }
          units := fun i => if i < cfg.UNIT_INDEX_MAX then Unit.zero else s.units i } = [] := by
      simp only [usedSlots, List.filter_eq_nil_iff, List.mem_range]
      intro i hi
      simp [hi, Unit.zero, ObjectFlags.zero]
    refine ⟨⟨?_, ?_⟩, rfl, hnil⟩
    · rw [hnil]
      simp [liveCache]
    · intro i hi hu
      simp [hi, Unit.zero, ObjectFlags.zero] at hu
  · simp only [Option.some.injEq] at hinit
    subst hinit
    exact absurd h3 hb
  · simp only [Unit_Get_ByIndex] at hinit
    split_ifs at hinit with h0
    simp only [Option.some.injEq] at hinit
    subst hinit
    have hnil : usedSlots cfg
        { s with
          g_global := { s.g_global with unitCount := 0 }
          units := fun i => if i < cfg.UNIT_INDEX_MAX then Unit.zero else s.units i } = [] := by
      simp only [usedSlots, List.filter_eq_nil_iff, List.mem_range]
      intro i hi
      simp [hi, Unit.zero, ObjectFlags.zero]
    refine ⟨⟨?_, ?_⟩, rfl, hnil⟩
    · rw [hnil]
      simp [liveCache]
    · intro i hi hu
      simp [hi, Unit.zero, ObjectFlags.zero] at hu

theorem step_base (cfg : Config) (s s' : Pool) (c : Call) (h : c.step cfg s = some s') :
    s'.g_global.unitStartPos = s.g_global.unitStartPos := by
  cases c with
  | allocate index type houseID =>
    simp only [Call.step, Option.map_eq_some'] at h
    obtain ⟨⟨r, s1⟩, h1, h2⟩ := h
    simp only at h2
    subst h2
    rcases Unit_Allocate_result cfg s s1 index type houseID r h1 with ⟨_, e⟩ | ⟨j, _, e, _⟩
    · rw [e]
    · rw [e]; rfl
  | free u =>
    simp only [Call.step] at h
    unfold Unit_Free at h
    dsimp only at h
    split_ifs at h <;> simp only [Option.some.injEq] at h <;> subst h <;> rfl

theorem run_base (cfg : Config) :
    ∀ (calls : List Call) (s s' : Pool), run cfg s calls = some s' →
      s'.g_global.unitStartPos = s.g_global.unitStartPos := by
  intro calls
  induction calls with
  | nil =>
    intro s s' h
    simp only [run, Option.some.injEq] at h
    rw [h]
  | cons c cs ih =>
    intro s s' h
    simp only [run] at h
    cases hstep : c.step cfg s with
    | none => rw [hstep] at h; simp at h
    | some s1 =>
      rw [hstep] at h
      rw [ih s1 s' h, step_base cfg s s1 c hstep]

theorem unitAddress_injective (cfg : Config) (s : Pool) (hsize : 0 < cfg.sizeofUnit)
    (hfit : s.g_global.unitStartPos.ip + cfg.sizeofUnit * cfg.UNIT_INDEX_MAX ≤ 65536)
    (i j : Nat) (hi : i < cfg.UNIT_INDEX_MAX) (hj : j < cfg.UNIT_INDEX_MAX)
    (h : unitAddress cfg s i = unitAddress cfg s j) : i = j := by
  have hbound : ∀ k, k < cfg.UNIT_INDEX_MAX →
      s.g_global.unitStartPos.ip + k * cfg.sizeofUnit < 65536 := by
    intro k hk
    have h1 : (k + 1) * cfg.sizeofUnit ≤ cfg.UNIT_INDEX_MAX * cfg.sizeofUnit :=
      Nat.mul_le_mul_right _ hk
    rw [Nat.mul_comm cfg.UNIT_INDEX_MAX] at h1
    rw [Nat.add_mul, Nat.one_mul] at h1
    omega
  simp only [unitAddress, csip32.mk.injEq, and_true] at h
  rw [Nat.mod_eq_of_lt (hbound i hi), Nat.mod_eq_of_lt (hbound j hj)] at h
  exact Nat.eq_of_mul_eq_mul_right hsize (Nat.add_left_cancel h)

/-! ## Properties of a single `Unit_Allocate` call -/

/-- C8. Allocation failure is atomic: whenever `Unit_Allocate` returns `NULL`, whatever the
state and the arguments, the state after the call is the state before it, so the slot
table, the live cache with its count and every house counter are what they were. -/
theorem Unit_Allocate_failure_atomic (cfg : Config) (s s' : Pool) (index type houseID : Nat)
    (h : Unit_Allocate cfg s index type houseID = some (none, s')) :
    s' = s ∧ s'.units = s.units ∧ liveCache s' = liveCache s
      ∧ s'.g_global.unitCount = s.g_global.unitCount ∧ s'.houses = s.houses := by
  have hs : s' = s := by
    rcases Unit_Allocate_result cfg s s' index type houseID none h with ⟨_, h2⟩ | ⟨j, h1, _⟩
    · exact h2
    · exact absurd h1 (by simp)
  subst hs
  exact ⟨rfl, rfl, rfl, rfl, rfl⟩

theorem Unit_Allocate_failure_atomic_witness :
    Unit_Allocate demoCfg demoB 2 1 0 = some (none, demoB)
      ∧ liveCache demoB = [demoSlot 0, demoSlot 2] ∧ (demoB.houses 0).unitCount = 2 :=
  ⟨rfl, (Unit_Allocate_failure_atomic demoCfg demoB demoB 2 1 0 rfl).2.2.1.symm ▸ by decide,
    by decide⟩

/-- C10. Postcondition of a successful allocation: when `Unit_Allocate(index, type, houseID)`
returns the record at slot `j`, that record has `index = j`, the given type and house,
`linkedID = 0xFF`, exactly the flags `used`, `allocated` and `variable_6_0001` set,
`script.delay = 0`, `variable_72[0] = 0xFF`, `amount = 3` for `UNIT_SANDWORM` and `0`
otherwise, and every remaining field zero; every other slot is unchanged. -/
theorem Unit_Allocate_postcondition (cfg : Config) (s s' : Pool)
    (index type houseID j : Nat)
    (h : Unit_Allocate cfg s index type houseID = some (some j, s')) :
    s'.units j =
        { o := { index := j, type := type, linkedID := 0xFF,
                 flags := { used := true, allocated := true, isNotOnMap := false,
                            variable_6_0001 := true, others := 0 },
                 houseID := houseID, script := { delay := 0, rest := 0 }, rest := 0 },
          variable_72_0 := 0xFF,
          amount := if type = cfg.UNIT_SANDWORM then 3 else 0,
          rest := 0 }
      ∧ ∀ i, i ≠ j → s'.units i = s.units i := by
  rcases Unit_Allocate_result cfg s s' index type houseID (some j) h with
    ⟨h1, _⟩ | ⟨j', h1, h2, _⟩
  · exact absurd h1 (by simp)
  · have hj : j' = j := by simpa using h1.symm
    subst hj
    subst h2
    refine ⟨?_, fun i hi => ?_⟩
    · simp [Unit_Allocate.commit, Unit_Allocate.record, Unit.zero, ObjectFlags.zero]
    · simp [Unit_Allocate.commit, Function.update_noteq hi]

theorem Unit_Allocate_postcondition_witness :
    Unit_Allocate demoCfg demoDirty 2 25 1
        = some (some 2, Unit_Allocate.commit demoCfg demoDirty 2 25 1)
      ∧ demoDirty.units 2 = demoGarbage
      ∧ ((Unit_Allocate.commit demoCfg demoDirty 2 25 1).units 2).amount = 3
      ∧ ((Unit_Allocate.commit demoCfg demoDirty 2 25 1).units 2).o.rest = 0
      ∧ (Unit_Allocate.commit demoCfg demoDirty 2 25 1).units 3 = demoGarbage :=
  have h := Unit_Allocate_postcondition demoCfg demoDirty
    (Unit_Allocate.commit demoCfg demoDirty 2 25 1) 2 25 1 2 rfl
  ⟨rfl, rfl, by rw [h.1]; rfl, by rw [h.1], by rw [h.2 3 (by decide)]; rfl⟩

/-- C9, the claim fails: in the five-slot instance the request for index `7` (out of
range and not `UNIT_INDEX_INVALID`), with a valid base, a valid type and house and an owner
below capacity, does not return `NULL`: the call stops at the assertion of
`Unit_Get_ByIndex`. -/
theorem Unit_Allocate_out_of_range_counterexample :
    demoInit.g_global.unitStartPos.csip ≠ 0
      ∧ (1 : Nat) ≠ 0xFF ∧ (0 : Nat) ≠ 0xFF
      ∧ passesCapacityCheck demoCfg demoInit 1 0
      ∧ demoCfg.UNIT_INDEX_MAX ≤ 7 ∧ 7 < 0xFFFF
      ∧ Unit_Allocate demoCfg demoInit 7 1 0 = none
      ∧ Unit_Allocate demoCfg demoInit 7 1 0 ≠ some (none, demoInit) :=
  ⟨by decide, by decide, by decide, Or.inl (by decide), by decide, by decide, rfl,
    by rw [show Unit_Allocate demoCfg demoInit 7 1 0 = none from rfl]; simp⟩

/-- C9, amended: for every state with a valid base, every valid type and house passing the
capacity check and every requested index `r` with `UNIT_INDEX_MAX ≤ r < 0xFFFF`, `r ≠ 0`,
the call `Unit_Allocate(r, type, houseID)` does not return: it stops at the failed
assertion `index < UNIT_INDEX_MAX` of `Unit_Get_ByIndex`. -/
theorem Unit_Allocate_out_of_range_asserts (cfg : Config) (s : Pool) (r type houseID : Nat)
    (hb : s.g_global.unitStartPos.csip ≠ 0) (ht : type ≠ 0xFF) (hh : houseID ≠ 0xFF)
    (hc : passesCapacityCheck cfg s type houseID)
    (hr0 : r ≠ 0) (hr1 : cfg.UNIT_INDEX_MAX ≤ r) (hr2 : r < 0xFFFF) :
    Unit_Allocate cfg s r type houseID = none := by
  rw [Unit_Allocate_cases cfg s r type houseID ht hh hb hc]
  have hsel : Unit_Allocate.select cfg s r type = none := by
    unfold Unit_Allocate.select
    rw [if_neg (by
      rintro (h | h)
      · exact hr0 h
      · rw [h] at hr2; exact absurd hr2 (by decide))]
    simp only [Unit_Get_ByIndex, if_neg (Nat.not_lt.mpr hr1)]
  rw [hsel]

theorem Unit_Allocate_out_of_range_asserts_witness :
    demoB.g_global.unitStartPos.csip ≠ 0 ∧ passesCapacityCheck demoCfg demoB 1 0
      ∧ demoCfg.UNIT_INDEX_MAX ≤ 5
      ∧ Unit_Allocate demoCfg demoB 5 1 0 = none
      ∧ Unit_Allocate demoCfg demoB 0xFFFE 2 9 = none :=
  ⟨by decide, Or.inl (by decide), by decide,
    Unit_Allocate_out_of_range_asserts demoCfg demoB 5 1 0 (by decide) (by decide) (by decide)
      (Or.inl (by decide)) (by decide) (by decide) (by decide),
    Unit_Allocate_out_of_range_asserts demoCfg demoB 0xFFFE 2 9 (by decide) (by decide)
      (by decide) (Or.inl (by decide)) (by decide) (by decide) (by decide)⟩

/-- C6. Explicit-index allocation: in a state with a valid base, for a requested index `r`
with `1 ≤ r < UNIT_INDEX_MAX` and a valid type and house passing the capacity check, the
call returns `NULL` when slot `r` is used; when slot `r` is not used it returns the record
at slot `r`, whatever the index range of the type, and, the cache having room for one more
entry, the new live cache is the old one with the address of slot `r` appended. -/
theorem Unit_Allocate_explicit_index (cfg : Config) (s : Pool) (r type houseID : Nat)
    (hmax : cfg.UNIT_INDEX_MAX ≤ 0xFFFF)
    (hb : s.g_global.unitStartPos.csip ≠ 0) (ht : type ≠ 0xFF) (hh : houseID ≠ 0xFF)
    (hc : passesCapacityCheck cfg s type houseID)
    (hr1 : 1 ≤ r) (hr2 : r < cfg.UNIT_INDEX_MAX) :
    ((s.units r).o.flags.used = true →
        Unit_Allocate cfg s r type houseID = some (none, s))
      ∧ ((s.units r).o.flags.used = false →
        ∃ s', Unit_Allocate cfg s r type houseID = some (some r, s')
          ∧ (s.g_global.unitCount < cfg.UNIT_INDEX_MAX →
              liveCache s' = liveCache s ++ [unitAddress cfg s r])) := by
  have hsel := select_explicit cfg s r type (by omega)
    (by unfold UNIT_INDEX_INVALID; omega) hr2
  rw [Unit_Allocate_cases cfg s r type houseID ht hh hb hc, hsel]
  refine ⟨fun hu => by simp [hu], fun hu => ?_⟩
  refine ⟨Unit_Allocate.commit cfg s r type houseID, by simp [hu], fun hroom => ?_⟩
  exact liveCache_commit cfg s r type houseID (by omega)

theorem Unit_Allocate_explicit_index_witness :
    demoB.g_global.unitStartPos.csip ≠ 0 ∧ passesCapacityCheck demoCfg demoB 1 0
      ∧ (demoB.units 1).o.flags.used = false
      ∧ demoB.g_global.unitCount < demoCfg.UNIT_INDEX_MAX
      ∧ liveCache demoB = [demoSlot 0, demoSlot 2]
      ∧ ∃ s', Unit_Allocate demoCfg demoB 1 1 0 = some (some 1, s')
        ∧ liveCache s' = [demoSlot 0, demoSlot 2, demoSlot 1] := by
  obtain ⟨s', h1, h2⟩ := (Unit_Allocate_explicit_index demoCfg demoB 1 1 0 (by decide)
    (by decide) (by decide) (by decide) (Or.inl (by decide)) (by decide) (by decide)).2
    (by decide)
  exact ⟨by decide, Or.inl (by decide), by decide, by decide, by decide, s', h1,
    by rw [h2 (by decide)]; decide⟩

/-- C7. Owner-capacity rule: in a state with a valid base, for a valid type and house and
a request whose target slot is available (a slot of the type's range that is not used, for
index `0` or `UNIT_INDEX_INVALID`; a requested slot that is not used otherwise),
`Unit_Allocate` returns `NULL` if and only if the house is at or over its capacity, the
type moves neither as a winger nor by slithering, and `variable_38BC` is zero; in every
other case it returns a record. -/
theorem Unit_Allocate_capacity_rule (cfg : Config) (s : Pool) (index type houseID : Nat)
    (hb : s.g_global.unitStartPos.csip ≠ 0) (ht : type ≠ 0xFF) (hh : houseID ≠ 0xFF)
    (havail :
      ((index = 0 ∨ index = UNIT_INDEX_INVALID) ∧
        ∃ j, (cfg.g_unitInfo type).indexStart ≤ j ∧ j ≤ (cfg.g_unitInfo type).indexEnd
          ∧ j < cfg.UNIT_INDEX_MAX ∧ (s.units j).o.flags.used = false)
      ∨ (index ≠ 0 ∧ index ≠ UNIT_INDEX_INVALID ∧ index < cfg.UNIT_INDEX_MAX
          ∧ (s.units index).o.flags.used = false)) :
    (Unit_Allocate cfg s index type houseID = some (none, s) ↔
        ((s.houses (House_Get_ByIndex houseID)).unitCount
            ≥ (s.houses (House_Get_ByIndex houseID)).unitCountMax
          ∧ (cfg.g_unitInfo type).movementType ≠ cfg.MOVEMENT_WINGER
          ∧ (cfg.g_unitInfo type).movementType ≠ cfg.MOVEMENT_SLITHER
          ∧ s.g_global.variable_38BC = 0))
      ∧ (((s.houses (House_Get_ByIndex houseID)).unitCount
            < (s.houses (House_Get_ByIndex houseID)).unitCountMax
          ∨ (cfg.g_unitInfo type).movementType = cfg.MOVEMENT_WINGER
          ∨ (cfg.g_unitInfo type).movementType = cfg.MOVEMENT_SLITHER
          ∨ s.g_global.variable_38BC ≠ 0) →
        ∃ j s', Unit_Allocate cfg s index type houseID = some (some j, s')) := by
  have hsel : ∃ j, Unit_Allocate.select cfg s index type = some (some j) := by
    rcases havail with ⟨hi, j, hj1, hj2, hj3, hj4⟩ | ⟨h0, h1, h2, h3⟩
    · have hex : ∃ j, (cfg.g_unitInfo type).indexStart ≤ j
          ∧ (s.units j).o.flags.used = false := ⟨j, hj1, hj4⟩
      classical
      have hspec := Nat.find_spec hex
      have hmin := fun k => @Nat.find_min _ _ hex k
      have hle : Nat.find hex ≤ j := Nat.find_min' hex ⟨hj1, hj4⟩
      refine ⟨Nat.find hex, ?_⟩
      rw [select_auto cfg s index type hi]
      refine scan_found cfg s _ _ _ hspec.1 (by omega) (by omega) hspec.2 ?_
      intro k hk1 hk2
      have := hmin k hk2
      simp only [not_and, Bool.not_eq_false] at this
      exact this hk1
    · exact ⟨index, by rw [select_explicit cfg s index type h0 h1 h2]; simp [h3]⟩
  obtain ⟨j, hj⟩ := hsel
  have hpass : passesCapacityCheck cfg s type houseID →
      Unit_Allocate cfg s index type houseID
        = some (some j, Unit_Allocate.commit cfg s j type houseID) := by
    intro hc
    rw [Unit_Allocate_cases cfg s index type houseID ht hh hb hc, hj]
  refine ⟨⟨fun h => ?_, fun h => ?_⟩, fun h => ⟨j, _, hpass h⟩⟩
  · by_contra hcon
    have hc : passesCapacityCheck cfg s type houseID := by
      unfold passesCapacityCheck
      by_contra hn
      simp only [not_or, not_lt, ne_eq, not_not] at hn
      exact hcon ⟨hn.1, hn.2.1, hn.2.2.1, hn.2.2.2⟩
    rw [hpass hc] at h
    simp at h
  · unfold Unit_Allocate
    rw [if_neg (by rintro (h' | h'); exact ht h'; exact hh h'), if_neg hb]
    simp only []
    rw [if_pos h]

theorem Unit_Allocate_capacity_rule_witness :
    demoFull.g_global.unitStartPos.csip ≠ 0
      ∧ (demoFull.houses (House_Get_ByIndex 0)).unitCount
          ≥ (demoFull.houses (House_Get_ByIndex 0)).unitCountMax
      ∧ (demoFull.units 1).o.flags.used = false
      ∧ Unit_Allocate demoCfg demoFull 0xFFFF 1 0 = some (none, demoFull)
      ∧ (∃ j s', Unit_Allocate demoCfg demoFull 1 2 0 = some (some j, s')) :=
  ⟨by decide, by decide, by decide,
    (Unit_Allocate_capacity_rule demoCfg demoFull 0xFFFF 1 0 (by decide) (by decide) (by decide)
      (Or.inl ⟨Or.inr rfl, 1, by decide, by decide, by decide, by decide⟩)).1.2
      ⟨by decide, by decide, by decide, by decide⟩,
    (Unit_Allocate_capacity_rule demoCfg demoFull 1 2 0 (by decide) (by decide) (by decide)
      (Or.inr ⟨by decide, by decide, by decide, by decide⟩)).2 (Or.inr (Or.inl (by decide)))⟩

/-- C4. Auto-index selection: in a state with a valid base, for a valid type whose index
range ends inside the table and a valid house passing the capacity check, the calls with
index `0` and with index `0xFFFF` have the same result and the same resulting state; the
call returns a record if and only if some slot of `[indexStart, indexEnd]` is not used;
the record returned is the first such slot (every slot of the range before it is used);
and when every slot of the range is used the call returns `NULL`. -/
theorem Unit_Allocate_auto_least_free (cfg : Config) (s : Pool) (type houseID : Nat)
    (hb : s.g_global.unitStartPos.csip ≠ 0) (ht : type ≠ 0xFF) (hh : houseID ≠ 0xFF)
    (hend : (cfg.g_unitInfo type).indexEnd < cfg.UNIT_INDEX_MAX)
    (hc : passesCapacityCheck cfg s type houseID) :
    Unit_Allocate cfg s 0 type houseID = Unit_Allocate cfg s 0xFFFF type houseID
      ∧ ((∃ j s', Unit_Allocate cfg s 0xFFFF type houseID = some (some j, s')) ↔
          ∃ j, (cfg.g_unitInfo type).indexStart ≤ j ∧ j ≤ (cfg.g_unitInfo type).indexEnd
            ∧ (s.units j).o.flags.used = false)
      ∧ (∀ j s', Unit_Allocate cfg s 0xFFFF type houseID = some (some j, s') →
          (cfg.g_unitInfo type).indexStart ≤ j ∧ j ≤ (cfg.g_unitInfo type).indexEnd
            ∧ (s.units j).o.flags.used = false
            ∧ ∀ k, (cfg.g_unitInfo type).indexStart ≤ k → k < j →
                (s.units k).o.flags.used = true)
      ∧ ((∀ j, (cfg.g_unitInfo type).indexStart ≤ j → j ≤ (cfg.g_unitInfo type).indexEnd →
            (s.units j).o.flags.used = true) →
          Unit_Allocate cfg s 0xFFFF type houseID = some (none, s)) := by
  have hsel := select_auto cfg s 0xFFFF type (Or.inr rfl)
  have hsel0 : Unit_Allocate.select cfg s 0 type = Unit_Allocate.select cfg s 0xFFFF type := by
    rw [hsel, select_auto cfg s 0 type (Or.inl rfl)]
  have hsound : ∀ j s', Unit_Allocate cfg s 0xFFFF type houseID = some (some j, s') →
      (cfg.g_unitInfo type).indexStart ≤ j ∧ j ≤ (cfg.g_unitInfo type).indexEnd
        ∧ (s.units j).o.flags.used = false
        ∧ ∀ k, (cfg.g_unitInfo type).indexStart ≤ k → k < j →
            (s.units k).o.flags.used = true := by
    intro j s' h
    rcases Unit_Allocate_result cfg s s' 0xFFFF type houseID (some j) h with
      ⟨h1, _⟩ | ⟨j', h1, _, h3⟩
    · exact absurd h1 (by simp)
    · have hj : j' = j := by simpa using h1.symm
      subst hj
      rw [hsel] at h3
      obtain ⟨a1, a2, _, a4, a5⟩ := scan_sound cfg s _ _ _ h3
      exact ⟨a1, by omega, a4, a5⟩
  refine ⟨?_, ⟨fun ⟨j, s', h⟩ => ?_, fun ⟨j, hj1, hj2, hj3⟩ => ?_⟩, hsound, fun hall => ?_⟩
  · rw [Unit_Allocate_cases cfg s 0 type houseID ht hh hb hc,
      Unit_Allocate_cases cfg s 0xFFFF type houseID ht hh hb hc, hsel0]
  · obtain ⟨a1, a2, a3, _⟩ := hsound j s' h
    exact ⟨j, a1, a2, a3⟩
  · have hex : ∃ j, (cfg.g_unitInfo type).indexStart ≤ j
        ∧ (s.units j).o.flags.used = false := ⟨j, hj1, hj3⟩
    classical
    have hspec := Nat.find_spec hex
    have hle : Nat.find hex ≤ j := Nat.find_min' hex ⟨hj1, hj3⟩
    have hfound := scan_found cfg s
      ((cfg.g_unitInfo type).indexEnd + 1 - (cfg.g_unitInfo type).indexStart)
      (cfg.g_unitInfo type).indexStart (Nat.find hex) hspec.1 (by omega) (by omega) hspec.2
      (fun k hk1 hk2 => by
        have := @Nat.find_min _ _ hex k hk2
        simp only [not_and, Bool.not_eq_false] at this
        exact this hk1)
    refine ⟨Nat.find hex, Unit_Allocate.commit cfg s (Nat.find hex) type houseID, ?_⟩
    rw [Unit_Allocate_cases cfg s 0xFFFF type houseID ht hh hb hc, hsel, hfound]
  · rw [Unit_Allocate_cases cfg s 0xFFFF type houseID ht hh hb hc, hsel]
    by_cases hle : (cfg.g_unitInfo type).indexStart ≤ (cfg.g_unitInfo type).indexEnd + 1
    · rw [scan_full cfg s _ _ (by omega) (fun k hk1 hk2 => hall k hk1 (by omega))]
    · have h0 : (cfg.g_unitInfo type).indexEnd + 1 - (cfg.g_unitInfo type).indexStart = 0 := by
        omega
      rw [h0]
      rfl

theorem Unit_Allocate_auto_least_free_witness :
    demoB.g_global.unitStartPos.csip ≠ 0 ∧ passesCapacityCheck demoCfg demoB 1 0
      ∧ (demoCfg.g_unitInfo 1).indexEnd < demoCfg.UNIT_INDEX_MAX
      ∧ Unit_Allocate demoCfg demoB 0 1 0 = Unit_Allocate demoCfg demoB 0xFFFF 1 0
      ∧ (∃ j s', Unit_Allocate demoCfg demoB 0xFFFF 1 0 = some (some j, s'))
      ∧ (Unit_Allocate demoCfg demoB 0xFFFF 1 0).map (fun r => r.1) = some (some 1) :=
  have h := Unit_Allocate_auto_least_free demoCfg demoB 1 0 (by decide) (by decide)
    (by decide) (by decide) (Or.inl (by decide))
  ⟨by decide, Or.inl (by decide), by decide, h.1,
    h.2.1.2 ⟨1, by decide, by decide, by decide⟩, by decide⟩

/-! ## Repeated allocation -/

/-- C5. Repeated auto allocation fills an empty range in ascending order: in a state with a
valid base, for a valid type whose range `[indexStart, indexEnd]` lies inside the table and
holds no used slot, a valid house with `k` units of capacity left and a live cache with
room for `k` more entries, `k ≤ indexEnd - indexStart + 1`, the `k` successive calls
`Unit_Allocate(UNIT_INDEX_INVALID, type, houseID)` return the slots `indexStart`,
`indexStart + 1`, ..., `indexStart + k - 1` in that order, the live cache gains the
addresses of these slots in that order, and the house counter grows by `k`; after
`indexEnd - indexStart + 1` calls the next one returns `NULL`. -/
theorem allocateAuto_fills_range (cfg : Config) (s : Pool) (type houseID k : Nat)
    (hmax : cfg.UNIT_INDEX_MAX ≤ 0xFFFF)
    (hb : s.g_global.unitStartPos.csip ≠ 0) (ht : type ≠ 0xFF) (hh : houseID ≠ 0xFF)
    (hrange : (cfg.g_unitInfo type).indexStart ≤ (cfg.g_unitInfo type).indexEnd)
    (hend : (cfg.g_unitInfo type).indexEnd < cfg.UNIT_INDEX_MAX)
    (hempty : ∀ j, (cfg.g_unitInfo type).indexStart ≤ j → j ≤ (cfg.g_unitInfo type).indexEnd →
      (s.units j).o.flags.used = false)
    (hk : k ≤ (cfg.g_unitInfo type).indexEnd - (cfg.g_unitInfo type).indexStart + 1)
    (hcap : (s.houses (House_Get_ByIndex houseID)).unitCount + k
      ≤ (s.houses (House_Get_ByIndex houseID)).unitCountMax)
    (hcap16 : (s.houses (House_Get_ByIndex houseID)).unitCountMax < 65536)
    (hroom : s.g_global.unitCount + k ≤ cfg.UNIT_INDEX_MAX) :
    ∃ s', allocateAuto cfg type houseID k s
          = some ((List.range k).map (fun i => some ((cfg.g_unitInfo type).indexStart + i)), s')
      ∧ liveCache s' = liveCache s
          ++ (List.range k).map (fun i => unitAddress cfg s ((cfg.g_unitInfo type).indexStart + i))
      ∧ (s'.houses (House_Get_ByIndex houseID)).unitCount
          = (s.houses (House_Get_ByIndex houseID)).unitCount + k
      ∧ (k = (cfg.g_unitInfo type).indexEnd - (cfg.g_unitInfo type).indexStart + 1 →
          Unit_Allocate cfg s' UNIT_INDEX_INVALID type houseID = some (none, s')) := by
  obtain ⟨s', h1, h2, h3, _, h5⟩ := allocateAuto_fill cfg type houseID ht hh hend k s
    (cfg.g_unitInfo type).indexStart hb (le_refl _) (by omega)
    (fun j hj1 hj2 => absurd hj2 (by omega)) hempty hcap hcap16 (by omega)
  refine ⟨s', h1, h2, h3, fun hk' => ?_⟩
  apply Unit_Allocate_select_none
  rw [select_auto cfg s' _ type (Or.inr rfl)]
  exact scan_full cfg s' _ _ (by omega) (fun j hj1 hj2 => h5 j hj1 (by omega))

theorem allocateAuto_fills_range_witness :
    demoInit.g_global.unitStartPos.csip ≠ 0
      ∧ (demoCfg.g_unitInfo 1).indexStart = 0 ∧ (demoCfg.g_unitInfo 1).indexEnd = 4
      ∧ (demoInit.houses (House_Get_ByIndex 0)).unitCount + 3
          ≤ (demoInit.houses (House_Get_ByIndex 0)).unitCountMax
      ∧ demoInit.g_global.unitCount + 3 ≤ demoCfg.UNIT_INDEX_MAX
      ∧ ∃ s', allocateAuto demoCfg 1 0 3 demoInit = some ([some 0, some 1, some 2], s')
          ∧ liveCache s' = [demoSlot 0, demoSlot 1, demoSlot 2]
          ∧ (s'.houses 0).unitCount = 3 := by
  obtain ⟨s', h1, h2, h3, _⟩ := allocateAuto_fills_range demoCfg demoInit 1 0 3 (by decide)
    (by decide) (by decide) (by decide) (by decide) (by decide)
    (fun j _ hj => by
      have hj5 : j < 5 := Nat.lt_succ_of_le hj
      simp [demoInit, hj5, Unit.zero, ObjectFlags.zero])
    (by decide) (by decide) (by decide) (by decide)
  exact ⟨by decide, rfl, rfl, by decide, by decide, s', h1, by rw [h2]; decide,
    h3.trans (by decide)⟩

/-! ## Invariants of the reachable states -/

/-- C1. Cache bijection invariant: start from the state `Unit_Init` produces with a valid
base, the table lying in one 64 KiB segment (`ip + sizeof(Unit) * UNIT_INDEX_MAX ≤ 65536`).
Every finite sequence of admissible `Unit_Allocate` and `Unit_Free` calls runs without a
failed assertion, and in the state it reaches the first `unitCount` entries of `unitArray`
hold no duplicates, hold exactly the addresses of the used slots of the table, and
`unitCount` is the number of used slots. -/
theorem cache_bijection_invariant (cfg : Config) (s s0 : Pool) (address : csip32)
    (calls : List Call)
    (hmax : cfg.UNIT_INDEX_MAX ≤ 0xFFFF) (hsize : 0 < cfg.sizeofUnit)
    (hinit : Unit_Init cfg s address = some s0)
    (hb : s0.g_global.unitStartPos.csip ≠ 0)
    (hfit : s0.g_global.unitStartPos.ip + cfg.sizeofUnit * cfg.UNIT_INDEX_MAX ≤ 65536)
    (hadm : admissible cfg s0 calls = true) :
    ∃ sN, run cfg s0 calls = some sN
      ∧ (liveCache sN).Nodup
      ∧ (∀ a, a ∈ liveCache sN ↔
          ∃ i, i < cfg.UNIT_INDEX_MAX ∧ (sN.units i).o.flags.used = true
            ∧ a = unitAddress cfg sN i)
      ∧ sN.g_global.unitCount = (usedSlots cfg sN).length := by
  obtain ⟨sN, hrun, hc, _⟩ := run_consistent cfg hmax calls s0
    (Unit_Init_consistent cfg s s0 address hinit hb).1 hadm
  have hbase := run_base cfg calls s0 sN hrun
  refine ⟨sN, hrun, ?_, ?_, hc.count_eq⟩
  · refine (List.Perm.nodup_iff hc.cache).mpr ?_
    refine List.Nodup.map_on ?_ ((List.nodup_range _).filter _)
    intro i hi j hj hij
    simp only [usedSlots, List.mem_filter, List.mem_range] at hi hj
    exact unitAddress_injective cfg sN hsize (by rw [hbase]; exact hfit) i j hi.1 hj.1 hij
  · intro a
    rw [hc.cache.mem_iff]
    simp only [usedSlots, List.mem_map, List.mem_filter, List.mem_range]
    constructor
    · rintro ⟨i, ⟨h1, h2⟩, h3⟩
      exact ⟨i, h1, h2, h3.symm⟩
    · rintro ⟨i, h1, h2, h3⟩
      exact ⟨i, ⟨h1, h2⟩, h3.symm⟩

theorem cache_bijection_invariant_witness :
    Unit_Init demoCfg demoPool demoAddress = some demoInit
      ∧ demoInit.g_global.unitStartPos.csip ≠ 0
      ∧ demoInit.g_global.unitStartPos.ip + demoCfg.sizeofUnit * demoCfg.UNIT_INDEX_MAX ≤ 65536
      ∧ admissible demoCfg demoInit demoCalls = true
      ∧ (run demoCfg demoInit demoCalls).map liveCache
          = some [demoSlot 0, demoSlot 2, demoSlot 1]
      ∧ ∃ sN, run demoCfg demoInit demoCalls = some sN ∧ (liveCache sN).Nodup
          ∧ sN.g_global.unitCount = (usedSlots demoCfg sN).length := by
  obtain ⟨sN, h1, h2, _, h4⟩ := cache_bijection_invariant demoCfg demoPool demoInit demoAddress
    demoCalls (by decide) (by decide) rfl (by decide) (by decide) (by decide)
  exact ⟨rfl, by decide, by decide, by decide, by decide, sN, h1, h2, h4⟩

/-- C2. Owner counter invariant: start from the state `Unit_Init` produces with a valid
base, every house counter being `0`. Every finite sequence of admissible `Unit_Allocate`
and `Unit_Free` calls runs without a failed assertion, and in the state it reaches the
counter `unitCount` of every house `o` is the number of used slots whose `houseID` is `o`,
whatever the types allocated and the value of `variable_38BC`. -/
theorem owner_counter_invariant (cfg : Config) (s s0 : Pool) (address : csip32)
    (calls : List Call)
    (hmax : cfg.UNIT_INDEX_MAX ≤ 0xFFFF)
    (hinit : Unit_Init cfg s address = some s0)
    (hb : s0.g_global.unitStartPos.csip ≠ 0)
    (hzero : ∀ o, (s0.houses o).unitCount = 0)
    (hadm : admissible cfg s0 calls = true) :
    ∃ sN, run cfg s0 calls = some sN
      ∧ ∀ o, (sN.houses o).unitCount = (usedSlotsOf cfg sN o).length := by
  obtain ⟨hc0, _, hnil⟩ := Unit_Init_consistent cfg s s0 address hinit hb
  obtain ⟨sN, hrun, _, ho⟩ := run_consistent cfg hmax calls s0 hc0 hadm
  refine ⟨sN, hrun, ho ?_⟩
  intro o
  have hle := usedSlotsOf_length_le cfg s0 o
  rw [hnil, List.length_nil] at hle
  rw [hzero o]
  omega

theorem owner_counter_invariant_witness :
    Unit_Init demoCfg demoPool demoAddress = some demoInit
      ∧ demoInit.g_global.unitStartPos.csip ≠ 0
      ∧ admissible demoCfg demoInit demoCalls = true
      ∧ (run demoCfg demoInit demoCalls).map (fun sN => ((sN.houses 0).unitCount,
        (sN.houses 1).unitCount, usedSlotsOf demoCfg sN 0, usedSlotsOf demoCfg sN 1))
        = some (2, 1, [0, 2], [1])
      ∧ ∃ sN, run demoCfg demoInit demoCalls = some sN
          ∧ ∀ o, (sN.houses o).unitCount = (usedSlotsOf demoCfg sN o).length :=
  ⟨rfl, by decide, by decide, by decide,
    owner_counter_invariant demoCfg demoPool demoInit demoAddress demoCalls
      (by decide) rfl (by decide) (fun _ => rfl) (by decide)⟩

/-- C3. Index identity invariant: start from the state `Unit_Init` produces with a valid
base. Every finite sequence of admissible `Unit_Allocate` and `Unit_Free` calls runs
without a failed assertion, and in the state it reaches every used slot `i` of the table
has `o.index = i`; moreover the record returned by any successful `Unit_Allocate` in that
state, whether it asked for an index or left the choice to the pool, has `o.index` equal to
the table position it was written to. -/
theorem index_identity_invariant (cfg : Config) (s s0 : Pool) (address : csip32)
    (calls : List Call)
    (hmax : cfg.UNIT_INDEX_MAX ≤ 0xFFFF)
    (hinit : Unit_Init cfg s address = some s0)
    (hb : s0.g_global.unitStartPos.csip ≠ 0)
    (hadm : admissible cfg s0 calls = true) :
    ∃ sN, run cfg s0 calls = some sN
      ∧ (∀ i, i < cfg.UNIT_INDEX_MAX → (sN.units i).o.flags.used = true →
          (sN.units i).o.index = i)
      ∧ ∀ index type houseID j s',
          Unit_Allocate cfg sN index type houseID = some (some j, s') →
            (s'.units j).o.index = j
              ∧ s'.units = Function.update sN.units j (s'.units j) := by
  obtain ⟨sN, hrun, hc, _⟩ := run_consistent cfg hmax calls s0
    (Unit_Init_consistent cfg s s0 address hinit hb).1 hadm
  refine ⟨sN, hrun, hc.index, ?_⟩
  intro index type houseID j s' h
  rcases Unit_Allocate_result cfg sN s' index type houseID (some j) h with
    ⟨h1, _⟩ | ⟨j', h1, h2, _⟩
  · exact absurd h1 (by simp)
  · have hj : j' = j := by simpa using h1.symm
    subst hj
    subst h2
    exact ⟨by simp [Unit_Allocate.commit, Unit_Allocate.record],
      by simp [Unit_Allocate.commit]⟩

theorem index_identity_invariant_witness :
    Unit_Init demoCfg demoPool demoAddress = some demoInit
      ∧ demoInit.g_global.unitStartPos.csip ≠ 0
      ∧ admissible demoCfg demoInit demoCalls = true
      ∧ (run demoCfg demoInit demoCalls).map
          (fun sN => (usedSlots demoCfg sN).map (fun i => (sN.units i).o.index))
          = some [0, 1, 2]
      ∧ ∃ sN, run demoCfg demoInit demoCalls = some sN
          ∧ ∀ i, i < demoCfg.UNIT_INDEX_MAX → (sN.units i).o.flags.used = true →
              (sN.units i).o.index = i := by
  obtain ⟨sN, h1, h2, _⟩ := index_identity_invariant demoCfg demoPool demoInit demoAddress
    demoCalls (by decide) rfl (by decide) (by decide)
  exact ⟨rfl, by decide, by decide, by decide, sN, h1, h2⟩

/-! ## `Unit_Free` and the live cache -/

theorem Unit_Free_frame (cfg : Config) (s s' : Pool) (u : Nat)
    (h : Unit_Free cfg s u = some s') :
    Unit_Free.scan s.g_global.unitArray (unitAddress cfg s (s.units u).o.index)
        s.g_global.unitCount 0 < s.g_global.unitCount
      ∧ s'.units = Function.update s.units u
          { s.units u with
            o := { (s.units u).o with
              flags := ObjectFlags.zero
              script := cfg.Script_Reset (s.units u).o.script } } := by
  unfold Unit_Free at h
  dsimp only at h
  split_ifs at h with h1 h2
  · simp only [Option.some.injEq] at h
    subst h
    exact ⟨h1, rfl⟩
  · simp only [Option.some.injEq] at h
    subst h
    exact ⟨h1, rfl⟩

theorem Unit_Free_scan_first (unitArray : Nat → csip32) (ucsip : csip32) (n p : Nat)
    (hp : p < n) (hat : (unitArray p).csip = ucsip.csip)
    (hfirst : ∀ k, k < p → (unitArray k).csip ≠ ucsip.csip) :
    Unit_Free.scan unitArray ucsip n 0 = p := by
  obtain ⟨_, h2, h3, h4⟩ := Unit_Free_scan_spec unitArray ucsip n 0
  rcases Nat.lt_trichotomy (Unit_Free.scan unitArray ucsip n 0) p with h | h | h
  · exact absurd (h3 (by omega)) (hfirst _ h)
  · exact h
  · exact absurd hat (h4 p (Nat.zero_le _) h)

theorem liveCache_getElem_opt (s : Pool) (q : Nat) (hq : q < s.g_global.unitCount) :
    (liveCache s)[q]? = some (s.g_global.unitArray q) := by
  simp [liveCache, List.getElem?_map, List.getElem?_range hq]

/-- C11. `Unit_Free` removes exactly one cache entry and compacts in order: in a state with
`n` live entries (a 16-bit count) in which the address of the record `u` first occurs in
the live cache at position `p`, `Unit_Free(u)` returns, the live cache has `n - 1` entries
and is the old cache with the entry at position `p` deleted: the entries before `p` stay
in place and each entry formerly at a position `q > p` is at `q - 1`. -/
theorem Unit_Free_removes_one_entry (cfg : Config) (s : Pool) (u p : Nat)
    (h16 : s.g_global.unitCount < 65536)
    (hp : p < s.g_global.unitCount)
    (hat : (s.g_global.unitArray p).csip = (unitAddress cfg s (s.units u).o.index).csip)
    (hfirst : ∀ k, k < p →
      (s.g_global.unitArray k).csip ≠ (unitAddress cfg s (s.units u).o.index).csip) :
    ∃ s', Unit_Free cfg s u = some s'
      ∧ s'.g_global.unitCount = s.g_global.unitCount - 1
      ∧ (liveCache s').length = (liveCache s).length - 1
      ∧ liveCache s' = (liveCache s).eraseIdx p
      ∧ (∀ q, q < p → s'.g_global.unitArray q = s.g_global.unitArray q)
      ∧ (∀ q, p < q → q < s.g_global.unitCount →
          s'.g_global.unitArray (q - 1) = s.g_global.unitArray q) := by
  have hscan := Unit_Free_scan_first s.g_global.unitArray
    (unitAddress cfg s (s.units u).o.index) s.g_global.unitCount p hp hat hfirst
  obtain ⟨s', e1, _, _, _, _, e6, e7⟩ := Unit_Free_some cfg s u (by rw [hscan]; exact hp) h16
  rw [hscan] at e7
  have hget : ∀ q, q < s.g_global.unitCount - 1 →
      some (s'.g_global.unitArray q) = ((liveCache s).eraseIdx p)[q]? := by
    intro q hq
    rw [← e7, liveCache_getElem_opt s' q (by rw [e6]; exact hq)]
  refine ⟨s', e1, e6, by simp [liveCache, e6], e7, fun q hq => ?_, fun q hq1 hq2 => ?_⟩
  · have h := hget q (by omega)
    rw [List.getElem?_eraseIdx_of_lt _ _ _ hq, liveCache_getElem_opt s q (by omega)] at h
    exact Option.some.inj h
  · have h := hget (q - 1) (by omega)
    rw [List.getElem?_eraseIdx_of_ge _ _ _ (by omega),
      show q - 1 + 1 = q from by omega, liveCache_getElem_opt s q hq2] at h
    exact Option.some.inj h

theorem Unit_Free_removes_one_entry_witness :
    (run demoCfg demoInit [Call.allocate 0xFFFF 1 0, Call.allocate 0xFFFF 1 0,
        Call.allocate 0xFFFF 1 0]).map
        (fun t => (liveCache t, (t.houses 0).unitCount,
          (Unit_Free demoCfg t 1).map (fun t1 => (liveCache t1, (t1.houses 0).unitCount))))
        = some ([demoSlot 0, demoSlot 1, demoSlot 2], 3, some ([demoSlot 0, demoSlot 2], 2))
      ∧ liveCache demoC = [demoSlot 0, demoSlot 2, demoSlot 1]
      ∧ ∃ s', Unit_Free demoCfg demoC 2 = some s'
          ∧ liveCache s' = (liveCache demoC).eraseIdx 1 := by
  obtain ⟨s', h1, _, _, h4, _⟩ := Unit_Free_removes_one_entry demoCfg demoC 2 1 (by decide)
    (by decide) (by decide) (fun k hk => by
      have hk0 : k = 0 := Nat.lt_one_iff.mp hk
      subst hk0
      decide)
  exact ⟨by decide, by decide, s', h1, h4⟩

/-- C12. The cache lookup of `Unit_Free` succeeds on a consistent pool: in every state
reached from `Unit_Init` (valid base) by admissible `Unit_Allocate` and `Unit_Free` calls,
for every used record `u` of the table the scan of `Unit_Free(u)` stops at a position
`i < unitCount` whose entry is the address of `u`, so the assertion holds and the call
returns; conversely, in any state in which no live cache entry is the address of the
record, `Unit_Free` fails the assertion and does not return. -/
theorem Unit_Free_lookup_succeeds (cfg : Config) (s s0 : Pool) (address : csip32)
    (calls : List Call)
    (hmax : cfg.UNIT_INDEX_MAX ≤ 0xFFFF)
    (hinit : Unit_Init cfg s address = some s0)
    (hb : s0.g_global.unitStartPos.csip ≠ 0)
    (hadm : admissible cfg s0 calls = true) :
    (∃ sN, run cfg s0 calls = some sN
      ∧ ∀ u, u < cfg.UNIT_INDEX_MAX → (sN.units u).o.flags.used = true →
          ∃ i, i < sN.g_global.unitCount
            ∧ Unit_Free.scan sN.g_global.unitArray (unitAddress cfg sN (sN.units u).o.index)
                sN.g_global.unitCount 0 = i
            ∧ (sN.g_global.unitArray i).csip
                = (unitAddress cfg sN (sN.units u).o.index).csip
            ∧ ∃ s', Unit_Free cfg sN u = some s')
      ∧ ∀ (t : Pool) (u : Nat),
          (∀ k, k < t.g_global.unitCount →
            (t.g_global.unitArray k).csip
              ≠ (unitAddress cfg t (t.units u).o.index).csip) →
          Unit_Free cfg t u = none := by
  constructor
  · obtain ⟨sN, hrun, hc, _⟩ := run_consistent cfg hmax calls s0
      (Unit_Init_consistent cfg s s0 address hinit hb).1 hadm
    refine ⟨sN, hrun, fun u hu hused => ?_⟩
    obtain ⟨s', hs', _, _⟩ := Unit_Free_consistent cfg sN u hmax hc hu hused
    have hlt := (Unit_Free_frame cfg sN s' u hs').1
    obtain ⟨_, _, h3, _⟩ := Unit_Free_scan_spec sN.g_global.unitArray
      (unitAddress cfg sN (sN.units u).o.index) sN.g_global.unitCount 0
    exact ⟨_, hlt, rfl, h3 (by omega), s', hs'⟩
  · intro t u hno
    obtain ⟨_, _, h3, _⟩ := Unit_Free_scan_spec t.g_global.unitArray
      (unitAddress cfg t (t.units u).o.index) t.g_global.unitCount 0
    have hge : ¬ Unit_Free.scan t.g_global.unitArray (unitAddress cfg t (t.units u).o.index)
        t.g_global.unitCount 0 < t.g_global.unitCount := by
      intro hlt
      exact hno _ hlt (h3 (by omega))
    unfold Unit_Free
    dsimp only
    rw [if_neg hge]

theorem Unit_Free_lookup_succeeds_witness :
    Unit_Init demoCfg demoPool demoAddress = some demoInit
      ∧ demoInit.g_global.unitStartPos.csip ≠ 0
      ∧ admissible demoCfg demoInit demoCalls = true
      ∧ (∃ sN, run demoCfg demoInit demoCalls = some sN
          ∧ ∀ u, u < demoCfg.UNIT_INDEX_MAX → (sN.units u).o.flags.used = true →
              ∃ s', Unit_Free demoCfg sN u = some s')
      ∧ Unit_Free demoCfg demoInit 0 = none := by
  have h := Unit_Free_lookup_succeeds demoCfg demoPool demoInit demoAddress demoCalls
    (by decide) rfl (by decide) (by decide)
  obtain ⟨sN, h1, h2⟩ := h.1
  refine ⟨rfl, by decide, by decide, ⟨sN, h1, fun u hu hused => ?_⟩,
    h.2 demoInit 0 (fun k hk => absurd hk (Nat.not_lt_zero k))⟩
  obtain ⟨_, _, _, _, hs'⟩ := h2 u hu hused
  exact hs'

/-! ## Guards of `Unit_Allocate`, cleared slots and slot addresses -/

/-- C18. Argument and initialisation guards of `Unit_Allocate`: whatever the requested
index, the call returns `NULL` and leaves the state as it was whenever `type` is `0xFF`,
whenever `houseID` is `0xFF`, and whenever `unitStartPos` is zero; the same holds in every
state with the same `g_global`, whatever its slot table and house pool hold, so neither is
consulted. -/
theorem Unit_Allocate_guards (cfg : Config) (s : Pool) (index type houseID : Nat)
    (h : type = 0xFF ∨ houseID = 0xFF ∨ s.g_global.unitStartPos.csip = 0) :
    Unit_Allocate cfg s index type houseID = some (none, s)
      ∧ ∀ t : Pool, t.g_global = s.g_global →
          Unit_Allocate cfg t index type houseID = some (none, t) := by
  have key : ∀ t : Pool, t.g_global = s.g_global →
      Unit_Allocate cfg t index type houseID = some (none, t) := by
    intro t ht
    unfold Unit_Allocate
    rcases h with h | h | h
    · rw [if_pos (Or.inl h)]
    · rw [if_pos (Or.inr h)]
    · by_cases h1 : type = 0xFF ∨ houseID = 0xFF
      · rw [if_pos h1]
      · rw [if_neg h1, if_pos (by rw [ht]; exact h)]
  exact ⟨key s rfl, key⟩

theorem Unit_Allocate_guards_witness :
    Unit_Allocate demoCfg demoB 7 0xFF 0 = some (none, demoB)
      ∧ Unit_Allocate demoCfg demoB 0xFFFF 1 0xFF = some (none, demoB)
      ∧ demoPool.g_global.unitStartPos.csip = 0
      ∧ Unit_Allocate demoCfg demoPool 7 1 0 = some (none, demoPool) :=
  ⟨(Unit_Allocate_guards demoCfg demoB 7 0xFF 0 (Or.inl rfl)).1,
    (Unit_Allocate_guards demoCfg demoB 0xFFFF 1 0xFF (Or.inr (Or.inl rfl))).1,
    by decide,
    (Unit_Allocate_guards demoCfg demoPool 7 1 0 (Or.inr (Or.inr (by decide)))).1⟩

theorem step_index_or_zero (cfg : Config) (s s' : Pool) (c : Call)
    (ha : c.admissible cfg s = true) (hstep : c.step cfg s = some s')
    (h : ∀ i, i < cfg.UNIT_INDEX_MAX → (s.units i).o.index = i ∨ s.units i = Unit.zero) :
    ∀ i, i < cfg.UNIT_INDEX_MAX → (s'.units i).o.index = i ∨ s'.units i = Unit.zero := by
  intro i hi
  cases c with
  | allocate index type houseID =>
    simp only [Call.step, Option.map_eq_some'] at hstep
    obtain ⟨⟨r, s1⟩, h1, h2⟩ := hstep
    simp only at h2
    subst h2
    rcases Unit_Allocate_result cfg s s1 index type houseID r h1 with ⟨_, e⟩ | ⟨j, _, e, _⟩
    · rw [e]; exact h i hi
    · subst e
      by_cases hij : i = j
      · subst hij
        exact Or.inl (by simp [Unit_Allocate.commit, Unit_Allocate.record])
      · simp only [Unit_Allocate.commit, Function.update_noteq hij]
        exact h i hi
  | free u =>
    simp only [Call.step] at hstep
    simp only [Call.admissible, Bool.and_eq_true, decide_eq_true_eq] at ha
    have hu := (Unit_Free_frame cfg s s' u hstep).2
    by_cases hiu : i = u
    · subst hiu
      rcases h i hi with h1 | h1
      · exact Or.inl (by rw [hu]; simpa using h1)
      · rw [h1] at ha
        exact absurd ha.2 (by simp [Unit.zero, ObjectFlags.zero])
    · rw [hu, Function.update_noteq hiu]
      exact h i hi

theorem run_index_or_zero (cfg : Config) :
    ∀ (calls : List Call) (s s' : Pool), admissible cfg s calls = true →
      run cfg s calls = some s' →
      (∀ i, i < cfg.UNIT_INDEX_MAX → (s.units i).o.index = i ∨ s.units i = Unit.zero) →
      ∀ i, i < cfg.UNIT_INDEX_MAX → (s'.units i).o.index = i ∨ s'.units i = Unit.zero := by
  intro calls
  induction calls with
  | nil =>
    intro s s' _ hrun h
    simp only [run, Option.some.injEq] at hrun
    subst hrun
    exact h
  | cons c cs ih =>
    intro s s' ha hrun h
    simp only [admissible, Bool.and_eq_true] at ha
    simp only [run] at hrun
    cases hstep : c.step cfg s with
    | none => rw [hstep] at hrun; simp at hrun
    | some s1 =>
      rw [hstep] at hrun
      have ha2 := ha.2
      rw [hstep] at ha2
      exact ih s1 s' ha2 hrun (step_index_or_zero cfg s s1 c ha.1 hstep h)

theorem Unit_Init_units (cfg : Config) (s s0 : Pool) (address : csip32)
    (hinit : Unit_Init cfg s address = some s0)
    (hb : s0.g_global.unitStartPos.csip ≠ 0) :
    ∀ i, i < cfg.UNIT_INDEX_MAX → s0.units i = Unit.zero := by
  intro i hi
  unfold Unit_Init at hinit
  dsimp only at hinit
  split_ifs at hinit with h1 h2 h3
  · simp only [Option.some.injEq] at hinit
    subst hinit
    exact absurd h2 hb
  · simp only [Unit_Get_ByIndex] at hinit
    split_ifs at hinit with h0
    simp only [Option.some.injEq] at hinit
    subst hinit
    simp [hi]
  · simp only [Option.some.injEq] at hinit
    subst hinit
    exact absurd h3 hb
  · simp only [Unit_Get_ByIndex] at hinit
    split_ifs at hinit with h0
    simp only [Option.some.injEq] at hinit
    subst hinit
    simp [hi]

/-- C19, the claim fails: in the state `Unit_Init` produces in the five-slot instance the
freshly cleared slot `1` is not used and records index `0`, not `1`. -/
theorem index_identity_cleared_counterexample :
    Unit_Init demoCfg demoPool demoAddress = some demoInit
      ∧ demoInit.g_global.unitStartPos.csip ≠ 0
      ∧ 1 < demoCfg.UNIT_INDEX_MAX
      ∧ (demoInit.units 1).o.flags.used = false
      ∧ demoInit.units 1 = Unit.zero
      ∧ (demoInit.units 1).o.index = 0
      ∧ (demoInit.units 1).o.index ≠ 1 :=
  ⟨rfl, by decide, by decide, by decide, by decide, by decide, by decide⟩

/-- C19, amended: `Unit_Init` with a valid base leaves every slot of the table with the
all-zero record, whose index is `0`. After any sequence of admissible `Unit_Allocate` and
`Unit_Free` calls, every slot `i` of the table either has `o.index = i` or still holds the
all-zero record `Unit_Init` left; every used slot has `o.index = i`, and a slot emptied by
`Unit_Free` keeps `o.index = i`. -/
theorem index_identity_cleared_slots (cfg : Config) (s s0 : Pool) (address : csip32)
    (calls : List Call)
    (hmax : cfg.UNIT_INDEX_MAX ≤ 0xFFFF)
    (hinit : Unit_Init cfg s address = some s0)
    (hb : s0.g_global.unitStartPos.csip ≠ 0)
    (hadm : admissible cfg s0 calls = true) :
    (∀ i, i < cfg.UNIT_INDEX_MAX → s0.units i = Unit.zero ∧ (s0.units i).o.index = 0)
      ∧ ∃ sN, run cfg s0 calls = some sN
          ∧ (∀ i, i < cfg.UNIT_INDEX_MAX →
              (sN.units i).o.index = i ∨ sN.units i = Unit.zero)
          ∧ (∀ i, i < cfg.UNIT_INDEX_MAX → (sN.units i).o.flags.used = true →
              (sN.units i).o.index = i)
          ∧ ∀ u, u < cfg.UNIT_INDEX_MAX → (sN.units u).o.flags.used = true →
              ∃ s', Unit_Free cfg sN u = some s'
                ∧ (s'.units u).o.flags.used = false ∧ (s'.units u).o.index = u := by
  have hzero := Unit_Init_units cfg s s0 address hinit hb
  obtain ⟨sN, hrun, hc, _⟩ := run_consistent cfg hmax calls s0
    (Unit_Init_consistent cfg s s0 address hinit hb).1 hadm
  refine ⟨fun i hi => ⟨hzero i hi, by rw [hzero i hi]; rfl⟩, sN, hrun, ?_, hc.index, ?_⟩
  · exact run_index_or_zero cfg calls s0 sN hadm hrun (fun i hi => Or.inr (hzero i hi))
  · intro u hu hused
    obtain ⟨s', hs', _, _⟩ := Unit_Free_consistent cfg sN u hmax hc hu hused
    have hunits := (Unit_Free_frame cfg sN s' u hs').2
    refine ⟨s', hs', by rw [hunits]; simp [ObjectFlags.zero], ?_⟩
    rw [hunits]
    simpa using hc.index u hu hused

theorem index_identity_cleared_slots_witness :
    Unit_Init demoCfg demoPool demoAddress = some demoInit
      ∧ demoInit.g_global.unitStartPos.csip ≠ 0
      ∧ admissible demoCfg demoInit (demoCalls.take 4) = true
      ∧ (run demoCfg demoInit (demoCalls.take 4)).map
          (fun sN => (List.range 5).map
            (fun i => ((sN.units i).o.flags.used, (sN.units i).o.index)))
          = some [(true, 0), (false, 1), (true, 2), (false, 0), (false, 0)]
      ∧ ∃ sN, run demoCfg demoInit (demoCalls.take 4) = some sN
          ∧ ∀ i, i < demoCfg.UNIT_INDEX_MAX →
              (sN.units i).o.index = i ∨ sN.units i = Unit.zero := by
  obtain ⟨_, sN, h1, h2, _⟩ := index_identity_cleared_slots demoCfg demoPool demoInit
    demoAddress (demoCalls.take 4) (by decide) rfl (by decide) (by decide)
  exact ⟨rfl, by decide, by decide, by decide, sN, h1, h2⟩

theorem unitAddress_slot (cfg : Config) (s : Pool) (hsize : 0 < cfg.sizeofUnit)
    (hfit : s.g_global.unitStartPos.ip + cfg.sizeofUnit * cfg.UNIT_INDEX_MAX ≤ 65536)
    (i : Nat) (hi : i < cfg.UNIT_INDEX_MAX) :
    s.g_global.unitStartPos.ip + i * cfg.sizeofUnit < 65536
      ∧ unitAddress cfg s i
          = { ip := s.g_global.unitStartPos.ip + i * cfg.sizeofUnit,
              cs := s.g_global.unitStartPos.cs }
      ∧ (unitAddress cfg s i).csip = s.g_global.unitStartPos.csip + i * cfg.sizeofUnit
      ∧ (unitAddress cfg s i).csip
          < s.g_global.unitStartPos.csip + cfg.sizeofUnit * cfg.UNIT_INDEX_MAX
      ∧ Unit_Get_ByMemory cfg s (unitAddress cfg s i) = some i := by
  have h1 : (i + 1) * cfg.sizeofUnit ≤ cfg.UNIT_INDEX_MAX * cfg.sizeofUnit :=
    Nat.mul_le_mul_right _ hi
  rw [Nat.mul_comm cfg.UNIT_INDEX_MAX, Nat.add_mul, Nat.one_mul] at h1
  have hlt : s.g_global.unitStartPos.ip + i * cfg.sizeofUnit < 65536 := by omega
  have haddr : unitAddress cfg s i
      = { ip := s.g_global.unitStartPos.ip + i * cfg.sizeofUnit,
          cs := s.g_global.unitStartPos.cs } := by
    simp only [unitAddress, Nat.mod_eq_of_lt hlt]
  have hcsip : (unitAddress cfg s i).csip
      = s.g_global.unitStartPos.csip + i * cfg.sizeofUnit := by
    rw [haddr]
    simp only [csip32.csip]
    omega
  refine ⟨hlt, haddr, hcsip, by omega, ?_⟩
  unfold Unit_Get_ByMemory
  rw [if_pos ⟨by omega, by omega⟩, haddr]
  have e : s.g_global.unitStartPos.cs * 16 + (s.g_global.unitStartPos.ip + i * cfg.sizeofUnit)
      - (s.g_global.unitStartPos.cs * 16 + s.g_global.unitStartPos.ip)
      = i * cfg.sizeofUnit := by omega
  simp only [e, Nat.mul_div_cancel _ hsize]

/-- C20, the claim fails: in the five-slot instance `Unit_Init` of the non-zero address
`F001:FFF0` stores the base `0:0` (the segment sum wraps around), the proviso
`base.ip + S * UNIT_INDEX_MAX ≤ 65536` holds, and the address computed for slot `0` is the
zero address. -/
theorem unitAddress_zero_counterexample :
    demoWrapAddress.csip ≠ 0
      ∧ Unit_Init demoCfg demoPool demoWrapAddress = some demoWrapped
      ∧ demoWrapped.g_global.unitStartPos.ip = demoWrapAddress.ip % 16
      ∧ demoWrapped.g_global.unitStartPos.ip
          + demoCfg.sizeofUnit * demoCfg.UNIT_INDEX_MAX ≤ 65536
      ∧ 0 < demoCfg.UNIT_INDEX_MAX
      ∧ unitAddress demoCfg demoWrapped 0 = { ip := 0, cs := 0 }
      ∧ (unitAddress demoCfg demoWrapped 0).csip = 0 :=
  ⟨by decide, rfl, by decide, by decide, by decide, by decide, by decide⟩

/-- C20, amended: let the base be the one `Unit_Init` stores for a non-zero address, so
`base.ip = address.ip & 0x000F ≤ 15`, and let this base be valid (non-zero). Provided
`base.ip + S * UNIT_INDEX_MAX ≤ 65536` for the record size `S > 0`, the address computed
for every slot `i < UNIT_INDEX_MAX` is the base with `ip = base.ip + i * S` without 16-bit
wrap, satisfies the assertion of `Unit_Get_ByMemory`, which returns the record at slot
`i`, is not the zero address, and is the address of no other slot. -/
theorem unitAddress_in_region (cfg : Config) (s s0 : Pool) (address : csip32)
    (hinit : Unit_Init cfg s address = some s0)
    (haddr : address.csip ≠ 0)
    (hb : s0.g_global.unitStartPos.csip ≠ 0)
    (hsize : 0 < cfg.sizeofUnit)
    (hfit : s0.g_global.unitStartPos.ip + cfg.sizeofUnit * cfg.UNIT_INDEX_MAX ≤ 65536) :
    s0.g_global.unitStartPos.ip = address.ip % 16
      ∧ s0.g_global.unitStartPos.ip ≤ 15
      ∧ ∀ i, i < cfg.UNIT_INDEX_MAX →
          s0.g_global.unitStartPos.ip + i * cfg.sizeofUnit < 65536
            ∧ (unitAddress cfg s0 i).ip = s0.g_global.unitStartPos.ip + i * cfg.sizeofUnit
            ∧ s0.g_global.unitStartPos.csip ≤ (unitAddress cfg s0 i).csip
            ∧ (unitAddress cfg s0 i).csip
                < s0.g_global.unitStartPos.csip + cfg.sizeofUnit * cfg.UNIT_INDEX_MAX
            ∧ Unit_Get_ByMemory cfg s0 (unitAddress cfg s0 i) = some i
            ∧ (unitAddress cfg s0 i).csip ≠ 0
            ∧ ∀ j, j < cfg.UNIT_INDEX_MAX → unitAddress cfg s0 i = unitAddress cfg s0 j →
                i = j := by
  have hip : s0.g_global.unitStartPos.ip = address.ip % 16 := by
    unfold Unit_Init at hinit
    dsimp only at hinit
    rw [if_pos haddr] at hinit
    split_ifs at hinit with h2
    · simp only [Option.some.injEq] at hinit
      subst hinit
      rfl
    · simp only [Unit_Get_ByIndex] at hinit
      split_ifs at hinit with h0
      simp only [Option.some.injEq] at hinit
      subst hinit
      rfl
  refine ⟨hip, by rw [hip]; exact Nat.le_of_lt_succ (Nat.mod_lt _ (by decide)), ?_⟩
  intro i hi
  obtain ⟨h1, h2, h3, h4, h5⟩ := unitAddress_slot cfg s0 hsize hfit i hi
  refine ⟨h1, by rw [h2], by omega, h4, h5, by omega, fun j hj hij => ?_⟩
  exact unitAddress_injective cfg s0 hsize hfit i j hi hj hij

theorem unitAddress_in_region_witness :
    Unit_Init demoCfg demoPool demoAddress = some demoInit
      ∧ demoAddress.csip ≠ 0
      ∧ demoInit.g_global.unitStartPos.csip ≠ 0
      ∧ demoInit.g_global.unitStartPos.ip + demoCfg.sizeofUnit * demoCfg.UNIT_INDEX_MAX
          ≤ 65536
      ∧ unitAddress demoCfg demoInit 4 = demoSlot 4
      ∧ Unit_Get_ByMemory demoCfg demoInit (unitAddress demoCfg demoInit 4) = some 4
      ∧ (unitAddress demoCfg demoInit 4).csip ≠ 0 :=
  have h := (unitAddress_in_region demoCfg demoPool demoInit demoAddress rfl (by decide)
    (by decide) (by decide) (by decide)).2.2 4 (by decide)
  ⟨rfl, by decide, by decide, by decide, by decide, h.2.2.2.2.1, h.2.2.2.2.2.1⟩

/-! ## `Unit_Recount` -/

theorem resetHouses_apply :
    ∀ (known : List Nat) (houses : Nat → House) (o : Nat),
      Unit_Recount.resetHouses known houses o
        = if o ∈ known then { houses o with unitCount := 0 } else houses o := by
  intro known
  induction known with
  | nil => intro houses o; simp [Unit_Recount.resetHouses]
  | cons h t ih =>
    intro houses o
    have hstep : Unit_Recount.resetHouses (h :: t) houses
        = Unit_Recount.resetHouses t
            (Function.update houses h { houses h with unitCount := 0 }) := by
      simp [Unit_Recount.resetHouses]
    rw [hstep, ih]
    by_cases hoh : o = h
    · subst hoh
      simp [Function.update_same]
    · by_cases hot : o ∈ t
      · simp [hot, Function.update_noteq hoh]
      · simp [hot, hoh, Function.update_noteq hoh]

theorem liveCache_push (t : Pool) (a : csip32) (houses : Nat → House)
    (hroom : t.g_global.unitCount + 1 < 65536) :
    liveCache { t with
        houses := houses
        g_global := { t.g_global with
          unitArray := Function.update t.g_global.unitArray t.g_global.unitCount a
          unitCount := (t.g_global.unitCount + 1) % 65536 } }
      = liveCache t ++ [a] := by
  simp only [liveCache, Nat.mod_eq_of_lt hroom, List.range_succ, List.map_append,
    List.map_cons, List.map_nil, Function.update_same]
  congr 1
  apply List.map_congr_left
  intro k hk
  rw [List.mem_range] at hk
  exact Function.update_noteq (Nat.ne_of_lt hk) _ _

theorem filter_range_succ (p : Nat → Bool) (k : Nat) :
    (List.range (k + 1)).filter p
      = (List.range k).filter p ++ (if p k = true then [k] else []) := by
  rw [List.range_succ, List.filter_append]
  congr 1
  by_cases h : p k = true
  · simp [h]
  · simp [h]

theorem RecountState.step (cfg : Config) (hmax : cfg.UNIT_INDEX_MAX ≤ 0xFFFF)
    (s t : Pool) (k : Nat) (hk : k < cfg.UNIT_INDEX_MAX) (h : RecountState cfg s k t) :
    ∃ t', (∀ n, Unit_Recount.loop cfg (n + 1) k t = Unit_Recount.loop cfg n (k + 1) t')
      ∧ RecountState cfg s (k + 1) t' := by
  have hlen : ((List.range k).filter (fun i => (s.units i).o.flags.used)).length ≤ k := by
    have := List.length_filter_le (fun i => (s.units i).o.flags.used) (List.range k)
    simpa using this
  by_cases hu : (s.units k).o.flags.used = true
  · refine ⟨{ t with
        houses := Function.update t.houses (House_Get_ByIndex (t.units k).o.houseID)
          { t.houses (House_Get_ByIndex (t.units k).o.houseID) with
            unitCount :=
              ((t.houses (House_Get_ByIndex (t.units k).o.houseID)).unitCount + 1) % 65536 }
        g_global := { t.g_global with
          unitArray := Function.update t.g_global.unitArray t.g_global.unitCount
            (unitAddress cfg t k)
          unitCount := (t.g_global.unitCount + 1) % 65536 } }, ?_, ?_⟩
    · intro n
      simp only [Unit_Recount.loop, Unit_Get_ByIndex, if_pos hk, h.units, hu, Bool.not_true,
        Bool.false_eq_true, if_false]
    · have hroom : t.g_global.unitCount + 1 < 65536 := by rw [h.count]; omega
      have haddr : unitAddress cfg t k = unitAddress cfg s k := by
        simp only [unitAddress, h.base]
      constructor
      · exact h.units
      · exact h.base
      · exact h.mode
      · rw [h.count] at hroom
        simp only [h.count, Nat.mod_eq_of_lt hroom, filter_range_succ, hu, if_true,
          List.length_append, List.length_singleton]
      · rw [liveCache_push t _ _ hroom, h.cache, haddr, filter_range_succ]
        simp only [hu, if_true, List.map_append, List.map_cons, List.map_nil]
      · intro p hp
        simp only [Nat.mod_eq_of_lt hroom] at hp
        simp only
        rw [Function.update_noteq (by omega)]
        exact h.rest p (by omega)
      · intro o
        simp only [House_Get_ByIndex]
        by_cases hoh : o = (t.units k).o.houseID
        · subst hoh
          simp only [Function.update_same]
          exact h.capacity _
        · rw [Function.update_noteq hoh]
          exact h.capacity o
      · intro o
        simp only [House_Get_ByIndex]
        rw [filter_range_succ]
        by_cases hoh : o = (t.units k).o.houseID
        · have hok : (s.units k).o.houseID = o := by rw [hoh, h.units]
          subst hoh
          simp only [Function.update_same, h.counter, hu, hok, decide_True, Bool.and_self,
            if_true, List.length_append, List.length_singleton]
          split_ifs <;> first | contradiction | omega
        · have hok : ¬ (s.units k).o.houseID = o := by
            rw [← h.units]; exact fun e => hoh e.symm
          rw [Function.update_noteq hoh]
          simp only [h.counter, hu, hok, decide_False, Bool.and_false, Bool.false_eq_true,
            if_false, List.append_nil]
  · refine ⟨t, ?_, ?_⟩
    · intro n
      have hu' : (s.units k).o.flags.used = false := by simpa using hu
      simp only [Unit_Recount.loop, Unit_Get_ByIndex, if_pos hk, h.units, hu', Bool.not_false,
        if_true]
    · have hu' : (s.units k).o.flags.used = false := by simpa using hu
      constructor
      · exact h.units
      · exact h.base
      · exact h.mode
      · simp only [h.count, filter_range_succ, hu', Bool.false_eq_true, if_false,
          List.append_nil]
      · simp only [h.cache, filter_range_succ, hu', Bool.false_eq_true, if_false,
          List.append_nil]
      · exact h.rest
      · exact h.capacity
      · intro o
        simp only [h.counter, filter_range_succ, hu', Bool.false_and, Bool.false_eq_true,
          if_false, List.append_nil]

theorem Unit_Recount_loop_spec (cfg : Config) (hmax : cfg.UNIT_INDEX_MAX ≤ 0xFFFF)
    (s : Pool) :
    ∀ (n k : Nat) (t : Pool), k + n ≤ cfg.UNIT_INDEX_MAX → RecountState cfg s k t →
      ∃ t', Unit_Recount.loop cfg n k t = some t' ∧ RecountState cfg s (k + n) t' := by
  intro n
  induction n with
  | zero => intro k t _ h; exact ⟨t, rfl, h⟩
  | succ n ih =>
    intro k t hk h
    obtain ⟨t1, h1, h2⟩ := RecountState.step cfg hmax s t k (by omega) h
    obtain ⟨t', h3, h4⟩ := ih (k + 1) t1 (by omega) h2
    refine ⟨t', by rw [h1 n, h3], ?_⟩
    rw [show k + (n + 1) = k + 1 + n from by omega]
    exact h4

theorem Unit_Recount_spec (cfg : Config) (hmax : cfg.UNIT_INDEX_MAX ≤ 0xFFFF)
    (known : List Nat) (s : Pool) :
    ∃ s', Unit_Recount cfg known s = some s'
      ∧ s'.units = s.units
      ∧ s'.g_global.unitStartPos = s.g_global.unitStartPos
      ∧ s'.g_global.variable_38BC = s.g_global.variable_38BC
      ∧ s'.g_global.unitCount = (usedSlots cfg s).length
      ∧ liveCache s' = (usedSlots cfg s).map (unitAddress cfg s)
      ∧ (∀ p, (usedSlots cfg s).length ≤ p →
          s'.g_global.unitArray p = s.g_global.unitArray p)
      ∧ (∀ o, (s'.houses o).unitCountMax = (s.houses o).unitCountMax)
      ∧ (∀ o, o ∈ known → (s'.houses o).unitCount = (usedSlotsOf cfg s o).length)
      ∧ (∀ o, o ∉ known → (s'.houses o).unitCount
          = if (usedSlotsOf cfg s o).length = 0 then (s.houses o).unitCount
            else ((s.houses o).unitCount + (usedSlotsOf cfg s o).length) % 65536) := by
  have h0 : RecountState cfg
      { s with
        houses := Unit_Recount.resetHouses known s.houses
        g_global := { s.g_global with unitCount := 0 } } 0
      { s with
        houses := Unit_Recount.resetHouses known s.houses
        g_global := { s.g_global with unitCount := 0 } } := by
    constructor
    · rfl
    · rfl
    · rfl
    · simp
    · simp [liveCache]
    · intro p _; rfl
    · intro o; rfl
    · intro o; simp
  obtain ⟨s', h1, h2⟩ := Unit_Recount_loop_spec cfg hmax _ cfg.UNIT_INDEX_MAX 0 _
    (by omega) h0
  rw [Nat.zero_add] at h2
  have hle : ∀ o, (usedSlotsOf cfg s o).length ≤ cfg.UNIT_INDEX_MAX := by
    intro o
    have := List.length_filter_le
      (fun i => (s.units i).o.flags.used && decide ((s.units i).o.houseID = o))
      (List.range cfg.UNIT_INDEX_MAX)
    simpa [usedSlotsOf] using this
  refine ⟨s', h1, h2.units, h2.base, h2.mode, h2.count, h2.cache, ?_, ?_, ?_, ?_⟩
  · intro p hp
    have := h2.rest p (by rw [h2.count]; exact hp)
    simpa using this
  · intro o
    rw [h2.capacity o]
    simp only [resetHouses_apply]
    split_ifs <;> rfl
  · intro o ho
    have hc := h2.counter o
    simp only [resetHouses_apply, if_pos ho] at hc
    have hl := hle o
    simp only [usedSlotsOf] at hl ⊢
    rw [hc]
    split_ifs with hz
    · exact hz.symm
    · omega
  · intro o ho
    have hc := h2.counter o
    simp only [resetHouses_apply, if_neg ho] at hc
    simp only [usedSlotsOf]
    exact hc

theorem Pool.eq_of_fields (a b : Pool)
    (h1 : a.g_global.unitStartPos = b.g_global.unitStartPos)
    (h2 : a.g_global.unitCount = b.g_global.unitCount)
    (h3 : ∀ p, a.g_global.unitArray p = b.g_global.unitArray p)
    (h4 : a.g_global.variable_38BC = b.g_global.variable_38BC)
    (h5 : a.units = b.units)
    (h6 : ∀ o, (a.houses o).unitCount = (b.houses o).unitCount)
    (h7 : ∀ o, (a.houses o).unitCountMax = (b.houses o).unitCountMax) : a = b := by
  obtain ⟨⟨a1, a2, a3, a4⟩, a5, a6⟩ := a
  obtain ⟨⟨b1, b2, b3, b4⟩, b5, b6⟩ := b
  simp only at h1 h2 h3 h4 h5 h6 h7
  have e3 : a3 = b3 := funext h3
  have e6 : a6 = b6 := by
    funext o
    have x := h6 o
    have y := h7 o
    cases hA : a6 o
    cases hB : b6 o
    rw [hA, hB] at x y
    simp only at x y
    rw [x, y]
  subst h1 h2 e3 h4 h5 e6
  rfl

theorem usedSlots_congr (cfg : Config) (s t : Pool) (h : t.units = s.units) :
    usedSlots cfg t = usedSlots cfg s ∧ ∀ o, usedSlotsOf cfg t o = usedSlotsOf cfg s o := by
  constructor
  · simp only [usedSlots, h]
  · intro o
    simp only [usedSlotsOf, h]

/-- C15. `Unit_Recount` rebuilds the live cache in ascending slot order: for every content
of the slot table and every previous content of the cache, the call returns, leaves the
records as they were, sets `unitCount` to the number of used slots of the table and makes
the live cache the list of the addresses of the used slots in strictly ascending order of
their position; the result is the same for any other state with the same records and
base, whatever its cache and counters. -/
theorem Unit_Recount_rebuilds_cache (cfg : Config) (known : List Nat) (s : Pool)
    (hmax : cfg.UNIT_INDEX_MAX ≤ 0xFFFF) :
    ∃ s', Unit_Recount cfg known s = some s'
      ∧ s'.units = s.units
      ∧ s'.g_global.unitCount = (usedSlots cfg s).length
      ∧ liveCache s' = (usedSlots cfg s).map (unitAddress cfg s)
      ∧ (usedSlots cfg s).Pairwise (fun i j => i < j)
      ∧ (∀ i, i ∈ usedSlots cfg s ↔
          i < cfg.UNIT_INDEX_MAX ∧ (s.units i).o.flags.used = true)
      ∧ ∀ (t : Pool) (known1 : List Nat), t.units = s.units →
          t.g_global.unitStartPos = s.g_global.unitStartPos →
          ∃ t', Unit_Recount cfg known1 t = some t' ∧ liveCache t' = liveCache s'
            ∧ t'.g_global.unitCount = s'.g_global.unitCount := by
  obtain ⟨s', h1, h2, _, _, h5, h6, _⟩ := Unit_Recount_spec cfg hmax known s
  refine ⟨s', h1, h2, h5, h6, ?_, ?_, ?_⟩
  · exact (List.pairwise_lt_range cfg.UNIT_INDEX_MAX).filter _
  · intro i
    simp [usedSlots, List.mem_filter]
  · intro t known1 hu hb
    obtain ⟨t', g1, _, _, _, g5, g6, _⟩ := Unit_Recount_spec cfg hmax known1 t
    refine ⟨t', g1, ?_, ?_⟩
    · rw [g6, h6, (usedSlots_congr cfg s t hu).1, unitAddress_congr cfg s t hb]
    · rw [g5, h5, (usedSlots_congr cfg s t hu).1]

theorem Unit_Recount_rebuilds_cache_witness :
    liveCache demoC = [demoSlot 0, demoSlot 2, demoSlot 1]
      ∧ usedSlots demoCfg demoC = [0, 1, 2]
      ∧ ∃ s', Unit_Recount demoCfg [0, 1] demoC = some s'
          ∧ liveCache s' = [demoSlot 0, demoSlot 1, demoSlot 2]
          ∧ s'.g_global.unitCount = 3 := by
  obtain ⟨s', h1, _, h3, h4, _⟩ := Unit_Recount_rebuilds_cache demoCfg [0, 1] demoC
    (by decide)
  exact ⟨by decide, by decide, s', h1, by rw [h4]; decide, by rw [h3]; decide⟩

/-- C16, the claim fails: in the five-slot instance, with the slots `0` and `2` used by
house `0`, its counter at `2`, and a registry iterator that visits only house `1`,
`Unit_Recount` leaves the counter of house `0` at `4`, not at the number `2` of used slots
that name it. -/
theorem Unit_Recount_owner_counterexample :
    usedSlotsOf demoCfg demoB 0 = [0, 2]
      ∧ (demoB.houses 0).unitCount = 2
      ∧ (Unit_Recount demoCfg [1] demoB).map (fun t => (t.houses 0).unitCount) = some 4
      ∧ (Unit_Recount demoCfg [1] demoB).map (fun t => (t.houses 0).unitCount)
          ≠ some (usedSlotsOf demoCfg demoB 0).length :=
  ⟨by decide, by decide, by decide, by decide⟩

/-- C16, amended: for every content of the slot table and every previous value of the
house counters, `Unit_Recount` returns and every house `o` that the registry iterator
visits has `unitCount` equal to the number of used slots whose `houseID` is `o`, `0` when
there is none; the counter of a house the iterator does not visit is not reset: it is its
previous value incremented, in 16 bits, once for every used slot that names it. -/
theorem Unit_Recount_owner_counters (cfg : Config) (known : List Nat) (s : Pool)
    (hmax : cfg.UNIT_INDEX_MAX ≤ 0xFFFF) :
    ∃ s', Unit_Recount cfg known s = some s'
      ∧ (∀ o, o ∈ known → (s'.houses o).unitCount = (usedSlotsOf cfg s o).length)
      ∧ (∀ o, o ∈ known → usedSlotsOf cfg s o = [] → (s'.houses o).unitCount = 0)
      ∧ (∀ o, o ∉ known → (s'.houses o).unitCount
          = if (usedSlotsOf cfg s o).length = 0 then (s.houses o).unitCount
            else ((s.houses o).unitCount + (usedSlotsOf cfg s o).length) % 65536)
      ∧ (∀ i o, (i ∈ usedSlotsOf cfg s o ↔
          i < cfg.UNIT_INDEX_MAX ∧ (s.units i).o.flags.used = true
            ∧ (s.units i).o.houseID = o)) := by
  obtain ⟨s', h1, _, _, _, _, _, _, _, h9, h10⟩ := Unit_Recount_spec cfg hmax known s
  refine ⟨s', h1, h9, fun o ho hnil => ?_, h10, fun i o => ?_⟩
  · rw [h9 o ho, hnil]
    rfl
  · simp [usedSlotsOf, List.mem_filter]

theorem Unit_Recount_owner_counters_witness :
    (Unit_Recount demoCfg [0, 1] { demoC with houses := fun _ => ⟨7, 9⟩ }).map
        (fun t => ((t.houses 0).unitCount, (t.houses 1).unitCount, (t.houses 2).unitCount))
        = some (2, 1, 7)
      ∧ ∃ s', Unit_Recount demoCfg [0, 1] { demoC with houses := fun _ => ⟨7, 9⟩ } = some s'
          ∧ ∀ o, o ∈ [0, 1] → (s'.houses o).unitCount
              = (usedSlotsOf demoCfg { demoC with houses := fun _ => ⟨7, 9⟩ } o).length := by
  obtain ⟨s', h1, h2, _⟩ := Unit_Recount_owner_counters demoCfg [0, 1]
    { demoC with houses := fun _ => ⟨7, 9⟩ } (by decide)
  exact ⟨by decide, s', h1, h2⟩

/-- C17, the claim fails: in the five-slot instance, with the slots `0` and `2` used by
house `0` and a registry iterator that visits only house `1`, the counter of house `0` is
`4` after the first `Unit_Recount` and `6` after the second. -/
theorem Unit_Recount_twice_counterexample :
    (Unit_Recount demoCfg [1] demoB).map (fun t => (t.houses 0).unitCount) = some 4
      ∧ ((Unit_Recount demoCfg [1] demoB).bind (Unit_Recount demoCfg [1])).map
          (fun t => (t.houses 0).unitCount) = some 6
      ∧ (Unit_Recount demoCfg [1] demoB).bind (Unit_Recount demoCfg [1])
          ≠ Unit_Recount demoCfg [1] demoB := by
  refine ⟨by decide, by decide, fun h => ?_⟩
  have h2 : ((Unit_Recount demoCfg [1] demoB).bind (Unit_Recount demoCfg [1])).map
      (fun t => (t.houses 0).unitCount)
      = (Unit_Recount demoCfg [1] demoB).map (fun t => (t.houses 0).unitCount) := by
    rw [h]
  exact absurd h2 (by decide)

/-- C17, amended: for every pool state `s`, two successive calls of `Unit_Recount` both
return, the records are those of `s` after each, and the live count, the live cache, the
whole array `unitArray` and the counter of every house the registry iterator visits are
the same after the second call as after the first; when every used record names a house
the iterator visits, the state after the second call is the state after the first. -/
theorem Unit_Recount_idempotent (cfg : Config) (known : List Nat) (s : Pool)
    (hmax : cfg.UNIT_INDEX_MAX ≤ 0xFFFF) :
    ∃ s1 s2, Unit_Recount cfg known s = some s1 ∧ Unit_Recount cfg known s1 = some s2
      ∧ s1.units = s.units ∧ s2.units = s.units
      ∧ s2.g_global.unitCount = s1.g_global.unitCount
      ∧ liveCache s2 = liveCache s1
      ∧ (∀ p, s2.g_global.unitArray p = s1.g_global.unitArray p)
      ∧ (∀ o, o ∈ known → (s2.houses o).unitCount = (s1.houses o).unitCount)
      ∧ ((∀ i, i < cfg.UNIT_INDEX_MAX → (s.units i).o.flags.used = true →
            (s.units i).o.houseID ∈ known) → s2 = s1) := by
  obtain ⟨s1, a1, a2, a3, a4, a5, a6, _, a8, a9, _⟩ := Unit_Recount_spec cfg hmax known s
  obtain ⟨s2, b1, b2, b3, b4, b5, b6, b7, b8, b9, b10⟩ := Unit_Recount_spec cfg hmax known s1
  have hU := usedSlots_congr cfg s s1 a2
  have hcount : s2.g_global.unitCount = s1.g_global.unitCount := by rw [b5, a5, hU.1]
  have hcache : liveCache s2 = liveCache s1 := by
    rw [b6, a6, hU.1, unitAddress_congr cfg s s1 a3]
  have harr : ∀ p, s2.g_global.unitArray p = s1.g_global.unitArray p := by
    intro p
    by_cases hp : p < s1.g_global.unitCount
    · have e1 := liveCache_getElem_opt s1 p hp
      have e2 := liveCache_getElem_opt s2 p (by rw [hcount]; exact hp)
      rw [hcache, e1] at e2
      exact (Option.some.inj e2).symm
    · exact b7 p (by rw [hU.1, ← a5]; omega)
  have hvis : ∀ o, o ∈ known → (s2.houses o).unitCount = (s1.houses o).unitCount := by
    intro o ho
    rw [b9 o ho, a9 o ho, hU.2 o]
  refine ⟨s1, s2, a1, b1, a2, b2.trans a2, hcount, hcache, harr, hvis, fun hall => ?_⟩
  apply Pool.eq_of_fields s2 s1 b3 hcount harr b4 b2 ?_ b8
  intro o
  by_cases ho : o ∈ known
  · exact hvis o ho
  · rw [b10 o ho, hU.2 o]
    have hnil : (usedSlotsOf cfg s o).length = 0 := by
      rw [List.length_eq_zero, List.eq_nil_iff_forall_not_mem]
      intro i hi
      simp only [usedSlotsOf, List.mem_filter, List.mem_range, Bool.and_eq_true,
        decide_eq_true_eq] at hi
      exact ho (hi.2.2 ▸ hall i hi.1 hi.2.1)
    rw [if_pos hnil]

theorem Unit_Recount_idempotent_witness :
    (Unit_Recount demoCfg [0, 1] demoC).map
        (fun t => (liveCache t, (t.houses 0).unitCount, (t.houses 1).unitCount))
        = some ([demoSlot 0, demoSlot 1, demoSlot 2], 2, 1)
      ∧ ((Unit_Recount demoCfg [0, 1] demoC).bind (Unit_Recount demoCfg [0, 1])).map
        (fun t => (liveCache t, (t.houses 0).unitCount, (t.houses 1).unitCount))
        = some ([demoSlot 0, demoSlot 1, demoSlot 2], 2, 1)
      ∧ ∃ s1 s2, Unit_Recount demoCfg [0, 1] demoC = some s1
          ∧ Unit_Recount demoCfg [0, 1] s1 = some s2 ∧ s2 = s1 := by
  obtain ⟨s1, s2, h1, h2, _, _, _, _, _, _, h9⟩ := Unit_Recount_idempotent demoCfg [0, 1]
    demoC (by decide)
  refine ⟨by decide, by decide, s1, s2, h1, h2, h9 (fun i hi hu => ?_)⟩
  have hi5 : i < 5 := hi
  interval_cases i <;> decide

/-! ## `Unit_Find` -/

theorem Unit_Find_loop_step (cfg : Config) (s : Pool) (find : PoolFindStruct)
    (hb : s.g_global.unitStartPos.csip ≠ 0) (hsize : 0 < cfg.sizeofUnit)
    (hfit : s.g_global.unitStartPos.ip + cfg.sizeofUnit * cfg.UNIT_INDEX_MAX ≤ 65536)
    (n index x : Nat) (hx : x < cfg.UNIT_INDEX_MAX)
    (hentry : s.g_global.unitArray index = unitAddress cfg s x) :
    Unit_Find.loop cfg s find.houseID find.type (n + 1) index
      = if passesFilter cfg s find x = true then some (some x, index)
        else Unit_Find.loop cfg s find.houseID find.type n (index + 1) := by
  obtain ⟨_, _, h3, _, h5⟩ := unitAddress_slot cfg s hsize hfit x hx
  have hnz : ¬ (unitAddress cfg s x).csip = 0 := by omega
  simp only [Unit_Find.loop, hentry, if_neg hnz, h5]
  by_cases c1 : (s.units x).o.flags.isNotOnMap = true ∧ s.g_global.variable_38BC = 0
  · rw [if_pos c1, if_neg (by simp [passesFilter, c1.1, c1.2])]
  · rw [if_neg c1]
    have p1 : (!(s.units x).o.flags.isNotOnMap || decide (s.g_global.variable_38BC ≠ 0))
        = true := by
      by_cases hm : (s.units x).o.flags.isNotOnMap = true
      · have : s.g_global.variable_38BC ≠ 0 := fun h => c1 ⟨hm, h⟩
        simp [this]
      · simp [hm]
    by_cases c2 : find.houseID ≠ HOUSE_INDEX_INVALID
        ∧ find.houseID ≠ cfg.Unit_GetHouseID (s.units x)
    · rw [if_pos c2, if_neg (by simp [passesFilter, c2.1, c2.2])]
    · rw [if_neg c2]
      have p2 : (decide (find.houseID = HOUSE_INDEX_INVALID)
          || decide (find.houseID = cfg.Unit_GetHouseID (s.units x))) = true := by
        by_cases hh : find.houseID = HOUSE_INDEX_INVALID
        · simp [hh]
        · have : find.houseID = cfg.Unit_GetHouseID (s.units x) := by
            by_contra hne
            exact c2 ⟨hh, hne⟩
          simp [this]
      by_cases c3 : find.type ≠ UNIT_INDEX_INVALID ∧ find.type ≠ (s.units x).o.type
      · rw [if_pos c3, if_neg (by simp [passesFilter, c3.1, c3.2])]
      · rw [if_neg c3]
        have p3 : (decide (find.type = UNIT_INDEX_INVALID)
            || decide (find.type = (s.units x).o.type)) = true := by
          by_cases ht : find.type = UNIT_INDEX_INVALID
          · simp [ht]
          · have : find.type = (s.units x).o.type := by
              by_contra hne
              exact c3 ⟨ht, hne⟩
            simp [this]
        rw [if_pos (by simp only [passesFilter, p1, p2, p3, Bool.and_self])]

theorem Unit_Find_loop_found (cfg : Config) (s : Pool) (find : PoolFindStruct)
    (slots : Nat → Nat)
    (hb : s.g_global.unitStartPos.csip ≠ 0) (hsize : 0 < cfg.sizeofUnit)
    (hfit : s.g_global.unitStartPos.ip + cfg.sizeofUnit * cfg.UNIT_INDEX_MAX ≤ 65536) :
    ∀ (n index p : Nat), index ≤ p → p < index + n →
      (∀ q, index ≤ q → q ≤ p → slots q < cfg.UNIT_INDEX_MAX
        ∧ s.g_global.unitArray q = unitAddress cfg s (slots q)) →
      passesFilter cfg s find (slots p) = true →
      (∀ q, index ≤ q → q < p → passesFilter cfg s find (slots q) = false) →
      Unit_Find.loop cfg s find.houseID find.type n index = some (some (slots p), p) := by
  intro n
  induction n with
  | zero => intro index p h1 h2; omega
  | succ n ih =>
    intro index p h1 h2 hs hp hq
    obtain ⟨hx, he⟩ := hs index (le_refl _) h1
    rw [Unit_Find_loop_step cfg s find hb hsize hfit n index (slots index) hx he]
    by_cases hip : index = p
    · subst hip
      rw [if_pos hp]
    · rw [if_neg (by rw [hq index (le_refl _) (by omega)]; simp)]
      exact ih (index + 1) p (by omega) (by omega) (fun q a b => hs q (by omega) b) hp
        (fun q a b => hq q (by omega) b)

theorem Unit_Find_loop_none (cfg : Config) (s : Pool) (find : PoolFindStruct)
    (slots : Nat → Nat)
    (hb : s.g_global.unitStartPos.csip ≠ 0) (hsize : 0 < cfg.sizeofUnit)
    (hfit : s.g_global.unitStartPos.ip + cfg.sizeofUnit * cfg.UNIT_INDEX_MAX ≤ 65536) :
    ∀ (n index : Nat),
      (∀ q, index ≤ q → q < index + n → slots q < cfg.UNIT_INDEX_MAX
        ∧ s.g_global.unitArray q = unitAddress cfg s (slots q)) →
      (∀ q, index ≤ q → q < index + n → passesFilter cfg s find (slots q) = false) →
      Unit_Find.loop cfg s find.houseID find.type n index = some (none, index + n) := by
  intro n
  induction n with
  | zero => intro index _ _; rfl
  | succ n ih =>
    intro index hs hq
    obtain ⟨hx, he⟩ := hs index (le_refl _) (by omega)
    rw [Unit_Find_loop_step cfg s find hb hsize hfit n index (slots index) hx he,
      if_neg (by rw [hq index (le_refl _) (by omega)]; simp),
      ih (index + 1) (fun q a b => hs q (by omega) (by omega))
        (fun q a b => hq q (by omega) (by omega))]
    congr 2
    omega

theorem Unit_Find_eq_loop (cfg : Config) (s : Pool) (find : PoolFindStruct) (start : Nat)
    (hc : (find.index = 0xFFFF ∧ start = 0)
      ∨ (find.index + 1 = start ∧ find.index < s.g_global.unitCount
          ∧ find.index < 0xFFFF)) :
    Unit_Find cfg s find =
      match Unit_Find.loop cfg s find.houseID find.type (s.g_global.unitCount - start)
          start with
      | none => none
      | some (r, index1) => some (r, { find with index := index1 }, s) := by
  have h1 : ¬ (find.index ≥ s.g_global.unitCount ∧ find.index ≠ 0xFFFF) := by
    rintro ⟨a, b⟩
    rcases hc with ⟨c, _⟩ | ⟨_, c, _⟩
    · exact b c
    · omega
  have h2 : (find.index + 1) % 65536 = start := by
    rcases hc with ⟨c, d⟩ | ⟨c, _, d⟩
    · rw [c, d]
    · omega
  unfold Unit_Find
  rw [if_neg h1]
  simp only [h2]

/-- C13, the claim fails: in the five-slot instance with a valid base and one live cache
entry `2000:0000`, which is not zero and lies outside the table, `Unit_Find` with a cursor
that has not started neither returns a record nor returns `NULL`: the call stops at the
assertion of `Unit_Get_ByMemory`. -/
theorem Unit_Find_stale_entry_counterexample :
    demoStale.g_global.unitStartPos.csip ≠ 0
      ∧ demoStale.g_global.unitCount = 1
      ∧ (demoStale.g_global.unitArray 0).csip ≠ 0
      ∧ Unit_Get_ByMemory demoCfg demoStale (demoStale.g_global.unitArray 0) = none
      ∧ demoFindAny.index = 0xFFFF
      ∧ Unit_Find demoCfg demoStale demoFindAny = none :=
  ⟨by decide, rfl, by decide, by decide, rfl, rfl⟩

/-- C13, amended: take a pool state with a valid base whose table lies in one 64 KiB
segment and whose live cache entries are addresses of table slots (entry `p` is the
address of slot `slots p`), and a cursor with a 16-bit position `c`, `0xFFFF` counting as
position `-1`. If `c` is not `0xFFFF` and `c ≥ unitCount`, `Unit_Find` returns `NULL` and
leaves the cursor as it was. Otherwise, if `p` is the least cache position with
`c < p < unitCount` whose record passes all filters, `Unit_Find` returns that record and
sets the cursor position to `p`; if there is no such position it returns `NULL` and sets
the cursor position to `unitCount`. The pool state is unchanged in every case. -/
theorem Unit_Find_single_step (cfg : Config) (s : Pool) (find : PoolFindStruct)
    (slots : Nat → Nat)
    (hb : s.g_global.unitStartPos.csip ≠ 0) (hsize : 0 < cfg.sizeofUnit)
    (hfit : s.g_global.unitStartPos.ip + cfg.sizeofUnit * cfg.UNIT_INDEX_MAX ≤ 65536)
    (hslots : ∀ p, p < s.g_global.unitCount → slots p < cfg.UNIT_INDEX_MAX
      ∧ s.g_global.unitArray p = unitAddress cfg s (slots p))
    (hidx : find.index < 65536) :
    (find.index ≠ 0xFFFF → s.g_global.unitCount ≤ find.index →
        Unit_Find cfg s find = some (none, find, s))
      ∧ ((find.index = 0xFFFF ∨ find.index < s.g_global.unitCount) →
          (∀ p, (if find.index = 0xFFFF then 0 else find.index + 1) ≤ p →
            p < s.g_global.unitCount →
            passesFilter cfg s find (slots p) = true →
            (∀ q, (if find.index = 0xFFFF then 0 else find.index + 1) ≤ q → q < p →
              passesFilter cfg s find (slots q) = false) →
            Unit_Find cfg s find = some (some (slots p), { find with index := p }, s))
          ∧ ((∀ p, (if find.index = 0xFFFF then 0 else find.index + 1) ≤ p →
                p < s.g_global.unitCount → passesFilter cfg s find (slots p) = false) →
              Unit_Find cfg s find
                = some (none, { find with index := s.g_global.unitCount }, s))) := by
  constructor
  · intro h1 h2
    unfold Unit_Find
    rw [if_pos ⟨h2, h1⟩]
  · intro hvalid
    have hc : (find.index = 0xFFFF ∧ (if find.index = 0xFFFF then 0 else find.index + 1) = 0)
        ∨ (find.index + 1 = (if find.index = 0xFFFF then 0 else find.index + 1)
            ∧ find.index < s.g_global.unitCount ∧ find.index < 0xFFFF) := by
      by_cases h : find.index = 0xFFFF
      · exact Or.inl ⟨h, by rw [if_pos h]⟩
      · rcases hvalid with h' | h'
        · exact absurd h' h
        · exact Or.inr ⟨by rw [if_neg h], h', by omega⟩
    have hle : (if find.index = 0xFFFF then 0 else find.index + 1) ≤ s.g_global.unitCount := by
      split_ifs with h
      · exact Nat.zero_le _
      · rcases hvalid with h' | h'
        · exact absurd h' h
        · omega
    rw [Unit_Find_eq_loop cfg s find _ hc]
    constructor
    · intro p hp1 hp2 hpass hmin
      rw [Unit_Find_loop_found cfg s find slots hb hsize hfit _ _ p hp1 (by omega)
        (fun q _ hq => hslots q (by omega)) hpass hmin]
    · intro hnone
      rw [Unit_Find_loop_none cfg s find slots hb hsize hfit _ _
        (fun q _ hq => hslots q (by omega)) (fun q hq1 hq2 => hnone q hq1 (by omega))]
      simp only
      congr 4
      omega

theorem Unit_Find_single_step_witness :
    liveCache demoE = [demoSlot 0, demoSlot 2, demoSlot 1]
      ∧ ((demoE.units 0).o.houseID, (demoE.units 2).o.houseID, (demoE.units 1).o.houseID)
          = (0, 1, 0)
      ∧ Unit_Find demoCfg demoE { demoFindHouse with index := 0 }
          = some (some 1, { demoFindHouse with index := 2 }, demoE)
      ∧ Unit_Find demoCfg demoE { demoFindHouse with index := 3 }
          = some (none, { demoFindHouse with index := 3 }, demoE) := by
  have hslots : ∀ p, p < demoE.g_global.unitCount →
      (fun p => if p = 0 then 0 else if p = 1 then 2 else 1) p < demoCfg.UNIT_INDEX_MAX
        ∧ demoE.g_global.unitArray p
            = unitAddress demoCfg demoE
                ((fun p => if p = 0 then 0 else if p = 1 then 2 else 1) p) := by
    intro p hp
    have hp3 : p < 3 := hp
    interval_cases p <;> decide
  have h := Unit_Find_single_step demoCfg demoE { demoFindHouse with index := 0 }
    (fun p => if p = 0 then 0 else if p = 1 then 2 else 1)
    (by decide) (by decide) (by decide) hslots (by decide)
  have h3 := Unit_Find_single_step demoCfg demoE { demoFindHouse with index := 3 }
    (fun p => if p = 0 then 0 else if p = 1 then 2 else 1)
    (by decide) (by decide) (by decide) hslots (by decide)
  refine ⟨by decide, by decide, ?_, h3.1 (by decide) (by decide)⟩
  exact (h.2 (Or.inr (by decide))).1 2 (by decide) (by decide) (by decide)
    (fun q hq1 hq2 => by
      have hq : q = 1 := by
        have a : 1 ≤ q := hq1
        omega
      subst hq
      decide)

theorem findCalls_exhausted (cfg : Config) (s : Pool) :
    ∀ (k : Nat) (find : PoolFindStruct), s.g_global.unitCount ≤ find.index →
      find.index ≠ 0xFFFF →
      findCalls cfg k s find = some (List.replicate k none, find) := by
  intro k
  induction k with
  | zero => intro find _ _; rfl
  | succ k ih =>
    intro find h1 h2
    have hf : Unit_Find cfg s find = some (none, find, s) := by
      unfold Unit_Find
      rw [if_pos ⟨h1, h2⟩]
    simp only [findCalls, hf, ih find h1 h2, List.replicate_succ]

theorem findCalls_walk (cfg : Config) (s : Pool) (find0 : PoolFindStruct) (L : List Nat)
    (hb : s.g_global.unitStartPos.csip ≠ 0) (hsize : 0 < cfg.sizeofUnit)
    (hfit : s.g_global.unitStartPos.ip + cfg.sizeofUnit * cfg.UNIT_INDEX_MAX ≤ 65536)
    (hL : liveCache s = L.map (unitAddress cfg s))
    (hlt : ∀ i, i ∈ L → i < cfg.UNIT_INDEX_MAX)
    (hcount : s.g_global.unitCount < 0xFFFF) :
    ∀ (suf : List Nat) (start c : Nat), L.drop start = suf → start ≤ L.length →
      ((c = 0xFFFF ∧ start = 0)
        ∨ (c + 1 = start ∧ c < s.g_global.unitCount ∧ c < 0xFFFF)) →
      ∀ k, ∃ f,
        findCalls cfg ((suf.filter (passesFilter cfg s find0)).length + 1 + k) s
            { find0 with index := c }
          = some ((suf.filter (passesFilter cfg s find0)).map some
              ++ List.replicate (k + 1) none, f) := by
  have hlen : L.length = s.g_global.unitCount := by
    have := congrArg List.length hL
    simpa [liveCache] using this.symm
  have hentry : ∀ p (hp : p < L.length),
      s.g_global.unitArray p = unitAddress cfg s (L[p]) := by
    intro p hp
    have e1 := liveCache_getElem_opt s p (by omega)
    rw [hL, List.getElem?_map, List.getElem?_eq_getElem hp] at e1
    exact (Option.some.inj e1).symm
  intro suf
  induction suf with
  | nil =>
    intro start c hd hs hc k
    have hstart : start = s.g_global.unitCount := by
      have := List.drop_eq_nil_iff.mp hd
      omega
    have hf : Unit_Find cfg s { find0 with index := c }
        = some (none, { find0 with index := start }, s) := by
      rw [Unit_Find_eq_loop cfg s { find0 with index := c } start hc]
      have h0 : s.g_global.unitCount - start = 0 := by omega
      rw [h0]
      rfl
    refine ⟨{ find0 with index := start }, ?_⟩
    simp only [List.filter_nil, List.length_nil, List.map_nil, List.nil_append]
    rw [show 0 + 1 + k = k + 1 from by omega]
    simp only [findCalls, hf]
    rw [findCalls_exhausted cfg s k { find0 with index := start } (by simp only; omega)
      (by simp only; omega)]
    simp only [List.replicate_succ]
  | cons x suf ih =>
    intro start c hd hs hc k
    have hlt1 : start < L.length := by
      by_contra hn
      rw [List.drop_eq_nil_of_le (by omega)] at hd
      exact absurd hd (by simp)
    rw [List.drop_eq_getElem_cons hlt1] at hd
    have hx : L[start] = x := (List.cons.inj hd).1
    have hd' : L.drop (start + 1) = suf := (List.cons.inj hd).2
    have hxlt : x < cfg.UNIT_INDEX_MAX := by
      rw [← hx]
      exact hlt _ (List.getElem_mem _)
    have hex : s.g_global.unitArray start = unitAddress cfg s x := by
      rw [← hx]
      exact hentry start hlt1
    obtain ⟨n, hn⟩ : ∃ n, s.g_global.unitCount - start = n + 1 :=
      ⟨s.g_global.unitCount - start - 1, by omega⟩
    have hloop := Unit_Find_loop_step cfg s find0 hb hsize hfit n start x hxlt hex
    have hfind := Unit_Find_eq_loop cfg s { find0 with index := c } start hc
    simp only [hn] at hfind
    have hc' : ((start = 0xFFFF ∧ start + 1 = 0)
        ∨ (start + 1 = start + 1 ∧ start < s.g_global.unitCount ∧ start < 0xFFFF)) :=
      Or.inr ⟨rfl, by omega, by omega⟩
    obtain ⟨f, hf⟩ := ih (start + 1) start hd' (by omega) hc' k
    refine ⟨f, ?_⟩
    by_cases hp : passesFilter cfg s find0 x = true
    · rw [hloop, if_pos hp] at hfind
      have hfil : (x :: suf).filter (passesFilter cfg s find0)
          = x :: suf.filter (passesFilter cfg s find0) := by
        simp [List.filter_cons, hp]
      rw [hfil]
      simp only [List.length_cons, List.map_cons, List.cons_append]
      rw [show (suf.filter (passesFilter cfg s find0)).length + 1 + 1 + k
        = (suf.filter (passesFilter cfg s find0)).length + 1 + k + 1 from by omega]
      simp only [findCalls, hfind, hf]
    · rw [hloop, if_neg hp] at hfind
      have hfind2 := Unit_Find_eq_loop cfg s { find0 with index := start } (start + 1) hc'
      have hn2 : s.g_global.unitCount - (start + 1) = n := by omega
      simp only [hn2] at hfind2
      have heq : Unit_Find cfg s { find0 with index := c }
          = Unit_Find cfg s { find0 with index := start } := by
        rw [hfind, hfind2]
      have hfil : (x :: suf).filter (passesFilter cfg s find0)
          = suf.filter (passesFilter cfg s find0) := by
        simp [List.filter_cons, hp]
      rw [hfil]
      rw [show (suf.filter (passesFilter cfg s find0)).length + 1 + k
        = (suf.filter (passesFilter cfg s find0)).length + k + 1 from by omega] at hf ⊢
      simp only [findCalls, heq] at hf ⊢
      exact hf

theorem Consistent.exists_slots (cfg : Config) (s : Pool) (hc : Consistent cfg s)
    (hsize : 0 < cfg.sizeofUnit)
    (hfit : s.g_global.unitStartPos.ip + cfg.sizeofUnit * cfg.UNIT_INDEX_MAX ≤ 65536) :
    ∃ L : List Nat, liveCache s = L.map (unitAddress cfg s)
      ∧ L.Nodup
      ∧ ∀ i, i ∈ L ↔ i < cfg.UNIT_INDEX_MAX ∧ (s.units i).o.flags.used = true := by
  have hdec : ∀ j, j < cfg.UNIT_INDEX_MAX →
      (Unit_Get_ByMemory cfg s (unitAddress cfg s j)).getD 0 = j := by
    intro j hj
    rw [(unitAddress_slot cfg s hsize hfit j hj).2.2.2.2]
    rfl
  have hmemU : ∀ j, j ∈ usedSlots cfg s ↔
      j < cfg.UNIT_INDEX_MAX ∧ (s.units j).o.flags.used = true := by
    intro j
    simp [usedSlots, List.mem_filter]
  have hmem : ∀ a, a ∈ liveCache s → ∃ j, j ∈ usedSlots cfg s ∧ unitAddress cfg s j = a := by
    intro a ha
    exact List.mem_map.mp (hc.cache.mem_iff.mp ha)
  have hmap : ((liveCache s).map (fun a => (Unit_Get_ByMemory cfg s a).getD 0)).map
      (unitAddress cfg s) = liveCache s := by
    rw [List.map_map]
    conv_rhs => rw [← List.map_id (liveCache s)]
    apply List.map_congr_left
    intro a ha
    obtain ⟨j, hj, hja⟩ := hmem a ha
    simp only [Function.comp, id]
    rw [← hja, hdec j ((hmemU j).mp hj).1]
  refine ⟨(liveCache s).map (fun a => (Unit_Get_ByMemory cfg s a).getD 0), hmap.symm, ?_, ?_⟩
  · apply List.Nodup.of_map (unitAddress cfg s)
    rw [hmap]
    refine (List.Perm.nodup_iff hc.cache).mpr ?_
    refine List.Nodup.map_on ?_ ((List.nodup_range _).filter _)
    intro i hi j hj hij
    exact unitAddress_injective cfg s hsize hfit i j ((hmemU i).mp hi).1 ((hmemU j).mp hj).1
      hij
  · intro i
    rw [← hmemU i, List.mem_map]
    constructor
    · rintro ⟨a, ha, hai⟩
      obtain ⟨j, hj, hja⟩ := hmem a ha
      rw [← hja, hdec j ((hmemU j).mp hj).1] at hai
      rw [← hai]
      exact hj
    · intro hi
      refine ⟨unitAddress cfg s i, ?_, hdec i ((hmemU i).mp hi).1⟩
      exact hc.cache.mem_iff.mpr (List.mem_map.mpr ⟨i, hi, rfl⟩)

/-- C14. Repeated `Unit_Find` walks the matching live set exactly once: in a consistent
pool state with a valid base (the table lying in one 64 KiB segment, fewer than `0xFFFF`
live entries), let `L` list the slots of the live cache in cache order; it has no
duplicates and holds exactly the used slots. Starting from a cursor with position
`0xFFFF`, the successive calls of `Unit_Find` with that cursor return the slots of `L`
that pass the filter, in the order of `L`, each once, and every later call returns `NULL`.
With the filters "any house" and "any type" and every live unit on the map (or
`variable_38BC` on) the slots returned are all of `L`, that is `unitCount` records. -/
theorem Unit_Find_walks_live_set (cfg : Config) (s : Pool) (find : PoolFindStruct)
    (hb : s.g_global.unitStartPos.csip ≠ 0) (hsize : 0 < cfg.sizeofUnit)
    (hfit : s.g_global.unitStartPos.ip + cfg.sizeofUnit * cfg.UNIT_INDEX_MAX ≤ 65536)
    (hc : Consistent cfg s)
    (hcount : s.g_global.unitCount < 0xFFFF)
    (hstart : find.index = 0xFFFF) :
    ∃ L : List Nat, liveCache s = L.map (unitAddress cfg s)
      ∧ L.length = s.g_global.unitCount
      ∧ L.Nodup
      ∧ (∀ i, i ∈ L ↔ i < cfg.UNIT_INDEX_MAX ∧ (s.units i).o.flags.used = true)
      ∧ (∀ k, ∃ f,
          findCalls cfg ((L.filter (passesFilter cfg s find)).length + 1 + k) s find
            = some ((L.filter (passesFilter cfg s find)).map some
                ++ List.replicate (k + 1) none, f))
      ∧ (find.houseID = HOUSE_INDEX_INVALID → find.type = UNIT_INDEX_INVALID →
          (∀ i, i ∈ L →
            (s.units i).o.flags.isNotOnMap = false ∨ s.g_global.variable_38BC ≠ 0) →
          L.filter (passesFilter cfg s find) = L) := by
  obtain ⟨L, h1, h2, h3⟩ := Consistent.exists_slots cfg s hc hsize hfit
  have hlen : L.length = s.g_global.unitCount := by
    have := congrArg List.length h1
    simpa [liveCache] using this.symm
  refine ⟨L, h1, hlen, h2, h3, fun k => ?_, fun hh ht hmap => ?_⟩
  · have hfind : find = { find with index := 0xFFFF } := by
      cases find
      simp only at hstart
      simp only [hstart]
    rw [hfind]
    exact findCalls_walk cfg s find L hb hsize hfit h1 (fun i hi => ((h3 i).mp hi).1) hcount
      L 0 0xFFFF rfl (Nat.zero_le _) (Or.inl ⟨rfl, rfl⟩) k
  · rw [List.filter_eq_self]
    intro i hi
    rcases hmap i hi with hm | hm
    · simp [passesFilter, hh, ht, hm]
    · simp [passesFilter, hh, ht, hm]

theorem Unit_Find_walks_live_set_witness :
    liveCache demoE = [demoSlot 0, demoSlot 2, demoSlot 1]
      ∧ (demoE.units 2).o.houseID = 1
      ∧ (findCalls demoCfg 4 demoE demoFindHouse).map (fun r => r.1)
          = some [some 0, some 1, none, none]
      ∧ (findCalls demoCfg 4 demoE demoFindAny).map (fun r => r.1)
          = some [some 0, some 2, some 1, none]
      ∧ ∃ L : List Nat, liveCache demoE = L.map (unitAddress demoCfg demoE)
          ∧ ∀ k, ∃ f,
              findCalls demoCfg ((L.filter (passesFilter demoCfg demoE demoFindHouse)).length
                  + 1 + k) demoE demoFindHouse
                = some ((L.filter (passesFilter demoCfg demoE demoFindHouse)).map some
                    ++ List.replicate (k + 1) none, f) := by
  obtain ⟨sN, hrun, hc, _⟩ := run_consistent demoCfg (by decide) demoCallsE demoInit
    (Unit_Init_consistent demoCfg demoPool demoInit demoAddress rfl (by decide)).1 (by decide)
  have hE : demoE = sN := by
    have h : demoE = (run demoCfg demoInit demoCallsE).getD demoInit := rfl
    rw [h, hrun]
    rfl
  rw [← hE] at hc
  obtain ⟨L, h1, _, _, _, h5, _⟩ := Unit_Find_walks_live_set demoCfg demoE demoFindHouse
    (by decide) (by decide) (by decide) hc (by decide) rfl
  exact ⟨by decide, by decide, by decide, by decide, L, h1, h5⟩

end OpenDUNE
